import Mathlib

/-!
# steam-stalker: a shallow embedding of `src/index.js`

The bot keeps two process-wide JavaScript objects, `serverTrackedUsers` (the
store, mirrored in the file `tracked_users.json`) and `serverUpdateIntervals`
(the registry of per-guild timers).  Three slash commands (`stalk`,
`stopstalk`, `update`), the `ready` handler and the function `updateStatus`
read and write them.

The embedding threads an explicit `State` through every function.  Everything
the code obtains from outside the process (the Steam HTTP answer, the Discord
channel cache, the outcome of message fetch, edit and send, the outcome of the
file write, the random colour and the clock) is read from an `Env` value, so
every definition below is a computable total function.  A JavaScript exception
that leaves a function is the flag `threw` of the returned `Result`.

The setters of `EmbedBuilder` check their arguments and throw on a refused
one.  The length checks are computed on UTF-16 code units; the image-address
check of the library is a member of `State`, fixed at startup.
-/

namespace SteamStalker

/-! ## JavaScript objects with string keys -/

/-- A JavaScript object used as a dictionary: keys in insertion order. -/
abbrev Obj (α : Type) := List (String × α)

/-- Property read `obj[key]`; `none` stands for `undefined`. -/
def Obj.get {α : Type} : Obj α → String → Option α
  | [], _ => none
  | (k, v) :: m, key => if k = key then some v else Obj.get m key

/-- Property write `obj[key] = v`: an existing key keeps its position, a new
key is added last. -/
def Obj.set {α : Type} : Obj α → String → α → Obj α
  | [], key, v => [(key, v)]
  | (k, w) :: m, key, v => if k = key then (k, v) :: m else (k, w) :: Obj.set m key v

/-- The keys visited by `for (const k in obj)`. -/
def Obj.keys {α : Type} (m : Obj α) : List String := m.map Prod.fst

/-! ## Data model -/

/-- One entry of `serverTrackedUsers`.  The handler of `stalk` creates entries
with `users` and `channelId` (line 126); `updateStatus` may create an entry
with neither (line 105), so every field can be absent. -/
structure GuildState where
  users : Option (List String)
  channelId : Option String
  messageId : Option String
  deriving DecidableEq, Repr

/-- One element of `data.response.players` in the Steam answer. -/
structure Player where
  personaname : Option String
  avatarfull : Option String
  gameextrainfo : Option String
  deriving DecidableEq, Repr

/-- The member `response` of the Steam answer. -/
structure SteamResponse where
  players : Option (List Player)
  deriving DecidableEq, Repr

/-- The body `data` of the Steam answer. -/
structure SteamData where
  response : Option SteamResponse
  deriving DecidableEq, Repr

/-- What `await axios.get(url)` does: it rejects, or it resolves with a body. -/
inductive HttpOutcome where
  | rejected
  | resolved (data : SteamData)
  deriving DecidableEq, Repr

/-- The object literal returned by `getSteamStatus` (lines 29-34).  It has no
member `gameid`. -/
structure SteamStatus where
  id : String
  name : Option String
  avatar : Option String
  game : String
  deriving DecidableEq, Repr

/-- The arguments handed to `EmbedBuilder` for one card (lines 76-84). -/
structure Embed where
  title : String
  thumbnail : Option String
  image : String
  fields : List (String × String)
  color : String
  footer : String
  deriving DecidableEq, Repr

/-- What a timer runs when it fires. -/
inductive Callback where
  | updateStatus (guildId : String)
  | setActivity (statuses : List String)
  deriving DecidableEq, Repr

/-- An active timer of the runtime, as installed by `setInterval`. -/
structure Timer where
  id : Nat
  callback : Callback
  delay : Int
  deriving DecidableEq, Repr

/-- Observable actions, in the order the code performs them. -/
inductive Effect where
  | httpGet (steamId : String)
  | consoleError (text : String)
  | consoleLog (text : String)
  | writeFile (content : Obj GuildState)
  | fetchMessage (channelId messageId : String)
  | edit (channelId messageId : String) (embeds : List Embed)
  | send (channelId : String) (embeds : List Embed)
  | reply (content : String)
  | registerCommands
  deriving DecidableEq, Repr

/-- The process state: the two global objects, the variable `statusInterval`,
the content of `DATA_FILE`, the timers the runtime holds, the effects
performed so far, and the image-address check of the loaded builders library,
which stays the same for the life of the process. -/
structure State where
  serverTrackedUsers : Obj GuildState
  dataFile : Obj GuildState
  serverUpdateIntervals : Obj Nat
  statusInterval : Option Nat
  timers : List Timer
  nextTimer : Nat
  effects : List Effect
  /-- The check behind `setThumbnail` and `setImage`: does `new URL(text)` parse
  the text with one of the protocols `http:`, `https:`, `attachment:`. -/
  imageURLPredicate : String → Bool

/-- Everything one handler run obtains from outside the process. -/
structure Env where
  /-- Is this id a key of `client.channels.cache`. -/
  channelCached : String → Bool
  /-- The outcome of the HTTP call made for the entry at a position of the
  tracked list. -/
  steam : Nat → String → HttpOutcome
  /-- Does `channel.messages.fetch(messageId)` resolve with a message. -/
  messageExists : String → String → Bool
  /-- Does `msg.edit` resolve. -/
  editOk : Bool
  /-- The snowflake of the message `channel.send` resolves with, `none` when it
  rejects; the member `id` of the message is its decimal text. -/
  sendResult : Option Nat
  /-- Does `fs.writeFileSync` return normally. -/
  writeOk : Bool
  /-- The value of `Math.floor(Math.random() * 16777215)` for the card at a position. -/
  random : Nat → Nat
  /-- The text of `new Date().toLocaleTimeString(...)`. -/
  clock : String

/-- The state a function leaves behind and whether an exception left it. -/
structure Result where
  state : State
  threw : Bool

/-- Record one effect. -/
def State.emit (s : State) (e : Effect) : State :=
  { s with effects := s.effects ++ [e] }

/-! ## Runtime timers -/

/-- The call `setInterval(cb, delay)`: returns the new handle. -/
def setInterval (cb : Callback) (delay : Int) (s : State) : Nat × State :=
  (s.nextTimer,
    { s with timers := s.timers ++ [⟨s.nextTimer, cb, delay⟩], nextTimer := s.nextTimer + 1 })

/-- The call `clearInterval(handle)`. -/
def clearInterval (handle : Nat) (s : State) : State :=
  { s with timers := s.timers.filter (fun t => t.id ≠ handle) }

/-! ## Persistent store: lines 9-21 -/

def DEFAULT_UPDATE_INTERVAL : Int := 60000

/-- Function `saveTrackedUsers` (lines 19-21): a full overwrite of the file
with the serialised store.  `JSON.stringify` is injective on stores, so the
file content is represented by the store value it encodes. -/
def saveTrackedUsers (env : Env) (s : State) : Result :=
  if env.writeOk then
    ⟨{ (s.emit (.writeFile s.serverTrackedUsers)) with dataFile := s.serverTrackedUsers }, false⟩
  else
    ⟨s.emit (.writeFile s.serverTrackedUsers), true⟩

/-! ## Presence fetcher: lines 23-39 -/

/-- The expression `a || b` on an optional string: `undefined` and the empty
string are falsy. -/
def orElse (a : Option String) (b : String) : String :=
  match a with
  | none => b
  | some v => if v = "" then b else v

/-- The `try` block of `getSteamStatus` (lines 25-34); `Except.error` is a
thrown exception: the rejected request, or a member read on `undefined`
(`data.response`, `data.response.players`, or `players[0]` of an empty list).
Reading `personaname`, `avatarfull` or `gameextrainfo` of a player that lacks
them yields `undefined` and does not throw. -/
def getSteamStatusTry (steamId : String) : HttpOutcome → Except String SteamStatus
  | .rejected => .error "request failed"
  | .resolved data =>
    match data.response with
    | none => .error "TypeError"
    | some r =>
      match r.players with
      | none => .error "TypeError"
      | some [] => .error "TypeError"
      | some (player :: _) =>
        .ok { id := steamId, name := player.personaname, avatar := player.avatarfull,
              game := orElse player.gameextrainfo "Not playing anything" }

/-- Function `getSteamStatus` (lines 23-39): the value it resolves with;
`none` is `null`.  The `catch` block turns every exception of the `try` block
into `null`. -/
def getSteamStatus (steamId : String) (o : HttpOutcome) : Option SteamStatus :=
  match getSteamStatusTry steamId o with
  | .ok steamData => some steamData
  | .error _ => none

/-- The effects of one `getSteamStatus` call: the request, and the
`console.error` of the `catch` block. -/
def getSteamStatusEffects (steamId : String) (o : HttpOutcome) : List Effect :=
  match getSteamStatusTry steamId o with
  | .ok _ => [.httpGet steamId]
  | .error _ => [.httpGet steamId, .consoleError ("Error fetching data for steamid " ++ steamId ++ ":")]

/-! ## Renderer: lines 76-84 -/

/-- A value inside a template literal: `undefined` prints as its name. -/
def templ : Option String → String
  | none => "undefined"
  | some v => v

/-- The expression `n.toString(16).padStart(6, "0")`. -/
def hex6 (n : Nat) : String :=
  let h := Nat.toDigits 16 n
  String.mk (List.replicate (6 - h.length) '0' ++ h)

/-- The member `length` of a JavaScript string: its number of UTF-16 code
units. -/
def jsLength (t : String) : Nat :=
  (t.data.map (fun c => if c.toNat < 65536 then 1 else 2)).sum

/-- The check of `setTitle`: between 1 and 256 code units. -/
def titlePredicate (title : String) : Bool :=
  decide (1 ≤ jsLength title) && decide (jsLength title ≤ 256)

/-- The check of `addFields` on one field: a name of 1 to 256 code units and a
value of 1 to 1024. -/
def embedFieldPredicate (field : String × String) : Bool :=
  decide (1 ≤ jsLength field.1) && decide (jsLength field.1 ≤ 256) &&
    decide (1 ≤ jsLength field.2) && decide (jsLength field.2 ≤ 1024)

/-- The arguments the setters of lines 76-84 receive for one status.
`steamData.gameid` is a member the status never has, so the image address
holds `undefined`. -/
def embedData (env : Env) (pos : Nat) (steamId : String) (steamData : SteamStatus) : Embed :=
  { title := "👤  " ++ templ steamData.name
    thumbnail := steamData.avatar
    image := "https://steamcdn-a.akamaihd.net/steam/apps/" ++ templ none ++ "/header.jpg"
    fields :=
      [("Profile", "[Link](https://steamcommunity.com/profiles/" ++ steamId ++ ")"),
       ("Currently Playing", steamData.game),
       ("\u200B", "[🔗 Add to Your Server]()")]
    color := "#" ++ hex6 (env.random pos)
    footer := "Last update — " ++ env.clock }

/-- Do all setters of lines 76-84 accept their argument.  `setThumbnail` also
accepts `undefined`.  `setColor` gets a `#` and six hexadecimal digits and
`setFooter` gets fourteen characters and a short time text (its limit is 2048
code units): neither ever refuses. -/
def settersAccept (imageURLPredicate : String → Bool) (e : Embed) : Bool :=
  titlePredicate e.title &&
    (match e.thumbnail with
      | none => true
      | some url => imageURLPredicate url) &&
    imageURLPredicate e.image &&
    e.fields.all embedFieldPredicate

/-- The card built from one status (lines 76-84); `none` when a setter of the
builder throws on its argument. -/
def mkEmbed (imageURLPredicate : String → Bool) (env : Env) (pos : Nat) (steamId : String)
    (steamData : SteamStatus) : Option Embed :=
  if settersAccept imageURLPredicate (embedData env pos steamId steamData) then
    some (embedData env pos steamId steamData)
  else none

/-! ## Update engine: lines 65-108 -/

/-- The loop of lines 72-87 from position `pos` on: `embeds` and `fx` are the
cards pushed and the effects performed so far.  The first component is `none`
when a setter of the builder threw: the exception leaves the loop. -/
def collectEmbeds (imageURLPredicate : String → Bool) (env : Env) :
    Nat → List String → List Embed → List Effect → Option (List Embed) × List Effect
  | _, [], embeds, fx => (some embeds, fx)
  | pos, steamId :: rest, embeds, fx =>
    let fx1 := fx ++ getSteamStatusEffects steamId (env.steam pos steamId)
    match getSteamStatus steamId (env.steam pos steamId) with
    | none => collectEmbeds imageURLPredicate env (pos + 1) rest embeds fx1
    | some steamData =>
      match mkEmbed imageURLPredicate env pos steamId steamData with
      | none => (none, fx1)
      | some embed =>
        collectEmbeds imageURLPredicate env (pos + 1) rest (embeds ++ [embed]) fx1

/-- The expression `serverTrackedUsers[guildId]?.users || []` (line 69). -/
def trackedUsers (s : State) (guildId : String) : List String :=
  ((s.serverTrackedUsers.get guildId).bind (fun g => g.users)).getD []

/-- The expression `client.channels.cache.get(id)` (line 66): the cache is
keyed by channel ids, so `undefined` is never found. -/
def resolveChannel (env : Env) : Option String → Option String
  | none => none
  | some cid => if env.channelCached cid then some cid else none

/-- Lines 103-107: send a new message, record its id in the entry of the
guild (an empty entry is created first when there is none), save. -/
def sendAndStore (env : Env) (guildId channel : String) (embeds : List Embed) (s : State) :
    Result :=
  let s1 := s.emit (.send channel embeds)
  match env.sendResult with
  | none => ⟨s1, true⟩
  | some sent =>
    let sentId := toString sent
    let g := (s1.serverTrackedUsers.get guildId).getD ⟨none, none, none⟩
    let s2 : State :=
      { s1 with serverTrackedUsers :=
          s1.serverTrackedUsers.set guildId { g with messageId := some sentId } }
    saveTrackedUsers env s2

/-- Lines 89-107 of `updateStatus`: what is done with the cards once the loop
has ended normally. -/
def postEmbeds (env : Env) (guildId channel : String) (embeds : List Embed) (s1 : State) :
    Result :=
  if embeds.length = 0 then
    ⟨s1.emit (.consoleLog ("✨ | No users tracked for guild " ++ guildId)), false⟩
  else
    match (s1.serverTrackedUsers.get guildId).bind (fun g => g.messageId) with
    | none => sendAndStore env guildId channel embeds s1
    | some messageId =>
      if messageId = "" then sendAndStore env guildId channel embeds s1
      else
        let s2 := s1.emit (.fetchMessage channel messageId)
        if env.messageExists channel messageId then
          ⟨s2.emit (.edit channel messageId embeds), !env.editOk⟩
        else sendAndStore env guildId channel embeds s2

/-- Function `updateStatus` (lines 65-108).  An exception of a builder setter
inside the loop rejects the run before anything is posted. -/
def updateStatus (env : Env) (guildId : String) (s : State) : Result :=
  match resolveChannel env ((s.serverTrackedUsers.get guildId).bind (fun g => g.channelId)) with
  | none => ⟨s.emit (.consoleError ("Cannot find channel for guild " ++ guildId)), false⟩
  | some channel =>
    match collectEmbeds s.imageURLPredicate env 0 (trackedUsers s guildId) [] [] with
    | (none, fx) => ⟨{ s with effects := s.effects ++ fx }, true⟩
    | (some embeds, fx) => postEmbeds env guildId channel embeds { s with effects := s.effects ++ fx }

/-! ## Command router: lines 110-188 -/

/-- The fields of an interaction the handler reads. -/
structure Interaction where
  isCommand : Bool
  manageChannels : Bool
  commandName : String
  guildId : String
  channelId : String
  /-- The value of `options.getString("steamid")`. -/
  steamid : String
  /-- The value of `options.getInteger("seconds")`. -/
  seconds : Int
  deriving DecidableEq, Repr

/-- The branch `commandName === "stalk"` (lines 122-147).  Reading `includes`
on an entry without `users` throws. -/
def stalk (env : Env) (guildId channelId steamId : String) (s : State) : Result :=
  let fresh : GuildState := ⟨some [], some channelId, none⟩
  let (g, s1) : GuildState × State :=
    match s.serverTrackedUsers.get guildId with
    | some g => (g, s)
    | none => (fresh, { s with serverTrackedUsers := s.serverTrackedUsers.set guildId fresh })
  match g.users with
  | none => ⟨s1, true⟩
  | some users =>
    if steamId ∈ users then
      ⟨s1.emit (.reply ("⚠️ | Steam ID " ++ steamId ++ " is already being tracked")), false⟩
    else
      let s2 : State :=
        { s1 with serverTrackedUsers :=
            s1.serverTrackedUsers.set guildId { g with users := some (users ++ [steamId]) } }
      let r1 := saveTrackedUsers env s2
      if r1.threw then r1
      else
        let r2 := updateStatus env guildId r1.state
        if r2.threw then r2
        else
          ⟨r2.state.emit (.reply ("✅ | Added Steam ID " ++ steamId ++ " to tracked profiles")),
            false⟩

/-- The branch `commandName === "stopstalk"` (lines 148-164). -/
def stopstalk (env : Env) (guildId steamId : String) (s : State) : Result :=
  let notTracked : Result :=
    ⟨s.emit (.reply ("⚠️ | Steam ID " ++ steamId ++ " is not being tracked")), false⟩
  match s.serverTrackedUsers.get guildId with
  | none => notTracked
  | some g =>
    match g.users with
    | none => ⟨s, true⟩
    | some users =>
      if steamId ∈ users then
        let g1 : GuildState := { g with users := some (users.filter (fun id => id ≠ steamId)) }
        let s1 : State := { s with serverTrackedUsers := s.serverTrackedUsers.set guildId g1 }
        let r1 := saveTrackedUsers env s1
        if r1.threw then r1
        else
          ⟨r1.state.emit
              (.reply ("🗑️ | Removed Steam ID " ++ steamId ++ " from tracked profiles")),
            false⟩
      else notTracked

/-- The branch `commandName === "update"` (lines 165-187).  A timer handle is
an object, hence truthy whenever it is present. -/
def update (guildId : String) (seconds : Int) (s : State) : Result :=
  if seconds < 60 ∨ seconds > 86400 then
    ⟨s.emit (.reply "⚠️ | The update interval must be between 60 and 86400 seconds."), false⟩
  else
    let s1 : State :=
      match s.serverUpdateIntervals.get guildId with
      | some handle => clearInterval handle s
      | none => s
    let (handle, s2) := setInterval (.updateStatus guildId) (seconds * 1000) s1
    let s3 : State :=
      { s2 with serverUpdateIntervals := s2.serverUpdateIntervals.set guildId handle }
    ⟨s3.emit (.reply ("✅ | Update interval set to " ++ toString seconds ++ " seconds")), false⟩

/-- The listener of `interactionCreate` (lines 110-188). -/
def interactionCreate (env : Env) (i : Interaction) (s : State) : Result :=
  if !i.isCommand then ⟨s, false⟩
  else if !i.manageChannels then
    ⟨s.emit (.reply "❌ | You do not have permission to use these commands (Manage Channels)"),
      false⟩
  else if i.commandName = "stalk" then stalk env i.guildId i.channelId i.steamid s
  else if i.commandName = "stopstalk" then stopstalk env i.guildId i.steamid s
  else if i.commandName = "update" then update i.guildId i.seconds s
  else ⟨s, false⟩

/-! ## Bot presence and startup: lines 41-62 and 233-247 -/

/-- The array `statuses` of `updateBotStatus` (lines 44-52); `totalServers` is
`client.guilds.cache.size`. -/
def statuses (totalServers : Nat) (s : State) : List String :=
  let totalTracked : Nat :=
    (s.serverTrackedUsers.map (fun kv => (kv.2.users.map List.length).getD 0)).sum
  ["👀 Tracking " ++ toString totalTracked ++ " Steam profiles",
   "🌍 Active in " ++ toString totalServers ++ " servers",
   "🕹️ Type /stalk to track a profile!"]

/-- Function `updateBotStatus` (lines 43-62). -/
def updateBotStatus (totalServers : Nat) (s : State) : State :=
  let s1 : State :=
    match s.statusInterval with
    | some handle => clearInterval handle s
    | none => s
  let (handle, s2) := setInterval (.setActivity (statuses totalServers s)) 15000 s1
  { s2 with statusInterval := some handle }

/-- One round of the loop of lines 238-246.  The call of `updateStatus` is not
awaited: an exception it raises does not stop the loop.  The run is carried to
its end before the timer is installed; the two touch disjoint parts of the
state. -/
def readyGuild (env : String → Env) (s : State) (guildId : String) : State :=
  let s1 := (updateStatus (env guildId) guildId s).state
  match s1.serverUpdateIntervals.get guildId with
  | some _ => s1
  | none =>
    let (handle, s2) := setInterval (.updateStatus guildId) DEFAULT_UPDATE_INTERVAL s1
    { s2 with serverUpdateIntervals := s2.serverUpdateIntervals.set guildId handle }

/-- The listener of `ready` (lines 233-247).  `registerCommands` catches its
own errors; it is the single effect `registerCommands`. -/
def ready (totalServers : Nat) (env : String → Env) (s : State) : State :=
  let s1 := updateBotStatus totalServers (s.emit (.consoleLog "✅"))
  let s2 := s1.emit .registerCommands
  s2.serverTrackedUsers.keys.foldl (readyGuild env) s2

/-- The state after lines 1-17 and 41: the libraries are loaded, the store is
the parsed file (an absent file reads as the empty object), no timer exists. -/
def startup (imageURLPredicate : String → Bool) (file : Obj GuildState) : State :=
  { serverTrackedUsers := file, dataFile := file, serverUpdateIntervals := [],
    statusInterval := none, timers := [], nextTimer := 0, effects := [],
    imageURLPredicate := imageURLPredicate }

/-- The events the process reacts to. -/
inductive Event where
  | ready (totalServers : Nat) (env : String → Env)
  | interactionCreate (env : Env) (i : Interaction)

/-- The state after one event. -/
def step (s : State) : Event → State
  | .ready totalServers env => ready totalServers env s
  | .interactionCreate env i => (interactionCreate env i s).state

/-- The state after a sequence of events. -/
def run (s : State) (events : List Event) : State := events.foldl step s

/-! ## Sample inputs -/

/-- A Steam answer listing one player with the given members. -/
def answerWith (player : Player) : HttpOutcome :=
  .resolved ⟨some ⟨some [player]⟩⟩

/-- A Steam answer whose only player has no `personaname` and no `avatarfull`. -/
def namelessAnswer : HttpOutcome :=
  answerWith ⟨none, none, some "Dota 2"⟩

/-- An environment in which every outside call succeeds: every channel is
cached, every profile is found idle, every message exists. -/
def calmEnv : Env :=
  { channelCached := fun _ => true
    steam := fun _ _ => answerWith ⟨some "gabe", some "https://avatars/gabe.jpg", none⟩
    messageExists := fun _ _ => true
    editOk := true
    sendResult := some 1001
    writeOk := true
    random := fun _ => 255
    clock := "12:00" }

/-- An image-address check for the sample inputs: it accepts the two addresses
that occur in them and refuses every other text, the empty one included. -/
def sampleURLPredicate (url : String) : Bool :=
  url = "https://avatars/gabe.jpg" ||
    url = "https://steamcdn-a.akamaihd.net/steam/apps/undefined/header.jpg"

/-- A store with one guild tracking one profile. -/
def oneGuild : State :=
  { serverTrackedUsers := [("g1", ⟨some ["76561197960287930"], some "c1", none⟩)]
    dataFile := [("g1", ⟨some ["76561197960287930"], some "c1", none⟩)]
    serverUpdateIntervals := []
    statusInterval := none
    timers := []
    nextTimer := 0
    effects := []
    imageURLPredicate := sampleURLPredicate }

/-! ## Predicates used in the statements -/

/-- Two states agree on everything that concerns timers. -/
def SameTimers (a b : State) : Prop :=
  a.serverUpdateIntervals = b.serverUpdateIntervals ∧ a.statusInterval = b.statusInterval ∧
    a.timers = b.timers ∧ a.nextTimer = b.nextTimer

/-- The store of `b` is the store of `a`, up to the member `messageId` of the
entry of `guildId`. -/
def SameUpToMessageId (guildId : String) (a b : State) : Prop :=
  b.serverTrackedUsers = a.serverTrackedUsers ∨
    ∃ g mid, a.serverTrackedUsers.get guildId = some g ∧
      b.serverTrackedUsers = a.serverTrackedUsers.set guildId { g with messageId := some mid }

/-- A store, as it may be read from the file, in which one guild lists the
same profile twice. -/
def twiceListed : State :=
  { serverTrackedUsers :=
      [("g1", ⟨some ["76561197960287930", "76561197960287930"], some "c1", none⟩)]
    dataFile := [("g1", ⟨some ["76561197960287930", "76561197960287930"], some "c1", none⟩)]
    serverUpdateIntervals := []
    statusInterval := none
    timers := []
    nextTimer := 0
    effects := []
    imageURLPredicate := sampleURLPredicate }

/-- The timers of the runtime that run `updateStatus` for a guild. -/
def updateTimers (s : State) (guildId : String) : List Timer :=
  s.timers.filter (fun t => t.callback = .updateStatus guildId)

/-- The registry and the runtime agree: handles are fresh and distinct, every
active `updateStatus` timer is the one the registry records for its guild,
every handle the registry records is an active `updateStatus` timer of that
guild, and `statusInterval` is an active `setActivity` timer. -/
def TimersConsistent (s : State) : Prop :=
  (∀ t ∈ s.timers, t.id < s.nextTimer) ∧
  (s.timers.map (fun t => t.id)).Nodup ∧
  (∀ t ∈ s.timers, ∀ g, t.callback = .updateStatus g →
    s.serverUpdateIntervals.get g = some t.id) ∧
  (∀ g h, s.serverUpdateIntervals.get g = some h →
    ∃ t ∈ s.timers, t.id = h ∧ t.callback = .updateStatus g) ∧
  (∀ h, s.statusInterval = some h →
    ∃ t ∈ s.timers, t.id = h ∧ ∃ statuses, t.callback = .setActivity statuses)

/-- A run of events: `ready`, then two accepted `update` commands in `g1`. -/
def sampleEvents : List Event :=
  [.ready 1 (fun _ => calmEnv),
   .interactionCreate calmEnv ⟨true, true, "update", "g1", "c1", "", 120⟩,
   .interactionCreate calmEnv ⟨true, true, "update", "g1", "c1", "", 300⟩]

/-- An environment in which the Steam request for the first tracked profile is
rejected and everything else succeeds. -/
def firstFailsEnv : Env :=
  { calmEnv with
    steam := fun pos _ =>
      if pos = 0 then .rejected
      else answerWith ⟨some "gabe", some "https://avatars/gabe.jpg", some "Dota 2"⟩ }

/-- A store with one guild tracking two profiles. -/
def twoTracked : State :=
  { oneGuild with
    serverTrackedUsers :=
      [("g1", ⟨some ["76561197960287930", "76561198000000000"], some "c1", none⟩)]
    dataFile := [("g1", ⟨some ["76561197960287930", "76561198000000000"], some "c1", none⟩)] }

/-- The records of the successful fetches of one cycle, in tracked order. -/
def fetched (env : Env) (users : List String) : List SteamStatus :=
  users.enum.filterMap (fun ip => getSteamStatus ip.2 (env.steam ip.1 ip.2))

/-- The record of a successful fetch is one the builder accepts: the title is
at most 256 code units long, the avatar, when there is one, and the image
address pass the image-address check, and the profile link and the activity
are at most 1024 code units long. -/
def passesValidation (accepts : String → Bool) (steamId : String) (r : SteamStatus) : Prop :=
  jsLength ("👤  " ++ r.name.getD "undefined") ≤ 256 ∧
  r.avatar.all accepts = true ∧
  accepts "https://steamcdn-a.akamaihd.net/steam/apps/undefined/header.jpg" = true ∧
  jsLength ("[Link](https://steamcommunity.com/profiles/" ++ steamId ++ ")") ≤ 1024 ∧
  jsLength r.game ≤ 1024

/-- An environment in which Steam answers with an empty avatar address and
everything else succeeds. -/
def blankAvatarEnv : Env :=
  { calmEnv with steam := fun _ _ => answerWith ⟨some "gabe", some "", none⟩ }

/-- A store, as it may be read from the file, whose only entry has no member
`users`. -/
def entryWithoutUsers : State :=
  { oneGuild with
    serverTrackedUsers := [("g1", ⟨none, some "c1", none⟩)]
    dataFile := [("g1", ⟨none, some "c1", none⟩)] }

instance (accepts : String → Bool) (steamId : String) (r : SteamStatus) :
    Decidable (passesValidation accepts steamId r) := by
  unfold passesValidation
  infer_instance

/-! ## Lemmas on objects -/

theorem Obj.get_set_same {α : Type} (m : Obj α) (k : String) (v : α) :
    (m.set k v).get k = some v := by
  induction m with
  | nil => simp [Obj.set, Obj.get]
  | cons kv m ih =>
    obtain ⟨k0, w⟩ := kv
    by_cases h : k0 = k
    · simp [Obj.set, Obj.get, h]
    · simp [Obj.set, Obj.get, h, ih]

theorem Obj.get_set_ne {α : Type} (m : Obj α) (k k1 : String) (v : α) (h : k1 ≠ k) :
    (m.set k v).get k1 = m.get k1 := by
  induction m with
  | nil => simp [Obj.set, Obj.get, Ne.symm h]
  | cons kv m ih =>
    obtain ⟨k0, w⟩ := kv
    by_cases h0 : k0 = k
    · subst h0
      simp [Obj.set, Obj.get, Ne.symm h]
    · by_cases h1 : k0 = k1
      · subst h1
        simp [Obj.set, Obj.get, h0]
      · simp [Obj.set, Obj.get, h0, h1, ih]

/-! ## Decimal text of a snowflake -/

theorem toDigitsCore_ne_nil (b fuel n : Nat) (ds : List Char) (h : 0 < fuel ∨ ds ≠ []) :
    Nat.toDigitsCore b fuel n ds ≠ [] := by
  induction fuel generalizing n ds with
  | zero =>
    rcases h with h | h
    · omega
    · simpa [Nat.toDigitsCore] using h
  | succ fuel ih =>
    simp only [Nat.toDigitsCore]
    split
    · simp
    · exact ih _ _ (Or.inr (by simp))

theorem toString_nat_ne_empty (n : Nat) : toString n ≠ "" := by
  intro h
  have h1 : (toString n).data = [] := by rw [h]
  simp only [toString, Nat.repr, List.asString] at h1
  exact toDigitsCore_ne_nil 10 (n + 1) n [] (Or.inl (by omega)) h1

/-! ## Command replies -/

theorem reply_texts_differ (seconds : Int) :
    "✅ | Update interval set to " ++ toString seconds ++ " seconds"
      ≠ "⚠️ | The update interval must be between 60 and 86400 seconds." := by
  intro h
  have h1 := congrArg (fun t : String => t.data.head?) h
  simp at h1


/-! ## Presence fetcher -/

/-- C10, the claim fails: for an answer whose player entry has neither name
nor avatar, `getSteamStatus` does not return `null`; it returns a record whose
name and avatar are absent. -/
theorem getSteamStatus_nameless_is_record :
    (∃ ps, namelessAnswer = .resolved ⟨some ⟨some (⟨none, none, some "Dota 2"⟩ :: ps)⟩⟩) ∧
    getSteamStatus "76561197960287930" namelessAnswer
      = some ⟨"76561197960287930", none, none, "Dota 2"⟩ :=
  ⟨⟨[], rfl⟩, rfl⟩

/-- C10, amended: `getSteamStatus` is total (it never raises).  It returns
`null` exactly when the request is rejected, or the answer lacks `response`,
or lacks `players`, or lists no player.  In every other case it returns a
record built from the first listed player: `id` is the requested id, `name`
and `avatar` are the player members (absent when the player lacks them), and
`game` is the activity when that is present and not the empty string, and
"Not playing anything" otherwise. -/
theorem getSteamStatus_outcomes (steamId : String) (o : HttpOutcome) :
    (getSteamStatus steamId o = none ↔
      (o = .rejected ∨
        ∃ d, o = .resolved d ∧
          (d.response = none ∨
            ∃ r, d.response = some r ∧ (r.players = none ∨ r.players = some [])))) ∧
    (∀ st, getSteamStatus steamId o = some st →
      ∃ d r player rest, o = .resolved d ∧ d.response = some r ∧
        r.players = some (player :: rest) ∧
        st.id = steamId ∧ st.name = player.personaname ∧ st.avatar = player.avatarfull ∧
        ((∀ a, player.gameextrainfo = some a → a ≠ "" → st.game = a) ∧
         (player.gameextrainfo = none ∨ player.gameextrainfo = some "" →
            st.game = "Not playing anything"))) := by
  cases o with
  | rejected => simp [getSteamStatus, getSteamStatusTry]
  | resolved d =>
    obtain ⟨resp⟩ := d
    cases resp with
    | none => simp [getSteamStatus, getSteamStatusTry]
    | some r =>
      obtain ⟨ps⟩ := r
      cases ps with
      | none => simp [getSteamStatus, getSteamStatusTry]
      | some l =>
        cases l with
        | nil => simp [getSteamStatus, getSteamStatusTry]
        | cons player rest =>
          refine ⟨by simp [getSteamStatus, getSteamStatusTry], ?_⟩
          intro st hst
          simp only [getSteamStatus, getSteamStatusTry, Option.some.injEq] at hst
          subst hst
          refine ⟨_, _, player, rest, rfl, rfl, rfl, rfl, rfl, rfl, ?_, ?_⟩
          · intro a ha hne
            simp [orElse, ha, hne]
          · rintro (h | h) <;> simp [orElse, h]

/-- C10, amended, at a concrete answer: an idle player yields a record with
the default activity. -/
theorem getSteamStatus_outcomes_witness :
    getSteamStatus "76561197960287930" (answerWith ⟨some "gabe", some "a.jpg", none⟩)
        = some ⟨"76561197960287930", some "gabe", some "a.jpg", "Not playing anything"⟩ ∧
    ∃ d r player rest, answerWith ⟨some "gabe", some "a.jpg", none⟩ = .resolved d ∧
      d.response = some r ∧ r.players = some (player :: rest) ∧
      (⟨"76561197960287930", some "gabe", some "a.jpg", "Not playing anything"⟩ :
          SteamStatus).id = "76561197960287930" ∧
      (⟨"76561197960287930", some "gabe", some "a.jpg", "Not playing anything"⟩ :
          SteamStatus).name = player.personaname ∧
      (⟨"76561197960287930", some "gabe", some "a.jpg", "Not playing anything"⟩ :
          SteamStatus).avatar = player.avatarfull ∧
      ((∀ a, player.gameextrainfo = some a → a ≠ "" →
          (⟨"76561197960287930", some "gabe", some "a.jpg", "Not playing anything"⟩ :
            SteamStatus).game = a) ∧
       (player.gameextrainfo = none ∨ player.gameextrainfo = some "" →
          (⟨"76561197960287930", some "gabe", some "a.jpg", "Not playing anything"⟩ :
            SteamStatus).game = "Not playing anything")) :=
  ⟨rfl, (getSteamStatus_outcomes "76561197960287930"
      (answerWith ⟨some "gabe", some "a.jpg", none⟩)).2 _ rfl⟩


/-! ## Validation failures of the command router -/

/-- C9, the claim fails: on a store whose entry for the guild has no member
`users`, the profile is not in the tracked list of the guild, yet `stopstalk`
throws on reading `includes` and sends no reply. -/
theorem stopstalk_throws_without_users :
    "76561197960287930" ∉ trackedUsers entryWithoutUsers "g1" ∧
    (stopstalk calmEnv "g1" "76561197960287930" entryWithoutUsers).threw = true ∧
    (stopstalk calmEnv "g1" "76561197960287930" entryWithoutUsers).state.effects = [] := by
  decide

/-- C9, amended: `stalk` of a profile that is already in the tracked list of
the guild, and `stopstalk` of a profile that is not in that list when the guild
has no entry at all or has an entry with a `users` list, return normally with
the state they were given plus one reply: the store, the file, the timers are
untouched, and the reply is the only effect (no file write, no update
cycle). -/
theorem rejected_commands_only_reply (env : Env) (guildId channelId steamId : String)
    (s : State) :
    (∀ g users, s.serverTrackedUsers.get guildId = some g → g.users = some users →
      steamId ∈ users →
      stalk env guildId channelId steamId s
        = ⟨s.emit (.reply ("⚠️ | Steam ID " ++ steamId ++ " is already being tracked")),
            false⟩) ∧
    ((s.serverTrackedUsers.get guildId = none ∨
        ∃ g users, s.serverTrackedUsers.get guildId = some g ∧ g.users = some users ∧
          steamId ∉ users) →
      stopstalk env guildId steamId s
        = ⟨s.emit (.reply ("⚠️ | Steam ID " ++ steamId ++ " is not being tracked")),
            false⟩) := by
  constructor
  · intro g users hg hu hin
    simp [stalk, hg, hu, hin]
  · rintro (hg | ⟨g, users, hg, hu, hin⟩)
    · simp [stopstalk, hg]
    · simp [stopstalk, hg, hu, hin]

/-- C9, amended, at concrete inputs: a repeated `stalk` on `oneGuild`, and a
`stopstalk` in a guild without entry. -/
theorem rejected_commands_only_reply_witness :
    stalk calmEnv "g1" "c1" "76561197960287930" oneGuild
        = ⟨oneGuild.emit
            (.reply ("⚠️ | Steam ID " ++ "76561197960287930" ++ " is already being tracked")),
            false⟩ ∧
    stopstalk calmEnv "g2" "76561197960287930" oneGuild
        = ⟨oneGuild.emit
            (.reply ("⚠️ | Steam ID " ++ "76561197960287930" ++ " is not being tracked")),
            false⟩ :=
  ⟨(rejected_commands_only_reply calmEnv "g1" "c1" "76561197960287930" oneGuild).1
      ⟨some ["76561197960287930"], some "c1", none⟩ ["76561197960287930"] rfl rfl (by decide),
   (rejected_commands_only_reply calmEnv "g2" "c1" "76561197960287930" oneGuild).2
      (Or.inl rfl)⟩

/-! ## The `update` command -/

/-- C3: for every integer `seconds`, `update` replies with the success text
exactly when `60 ≤ seconds ≤ 86400`.  In that case the registry records a new
handle for the guild and a timer with that handle, the callback
`updateStatus(guildId)` and the delay `seconds * 1000` is active.  Outside the
range (59 and 86401 included) the state is the given state plus the validation
reply: registry and timers, the prior timer of the guild included, are
unchanged. -/
theorem update_accepts_exactly_the_range (guildId : String) (seconds : Int) (s : State) :
    ((60 ≤ seconds ∧ seconds ≤ 86400) ↔
      (update guildId seconds s).state.effects
        = s.effects ++
            [.reply ("✅ | Update interval set to " ++ toString seconds ++ " seconds")]) ∧
    ((60 ≤ seconds ∧ seconds ≤ 86400) →
      (update guildId seconds s).threw = false ∧
      (update guildId seconds s).state.serverUpdateIntervals.get guildId = some s.nextTimer ∧
      (⟨s.nextTimer, .updateStatus guildId, seconds * 1000⟩ : Timer)
        ∈ (update guildId seconds s).state.timers) ∧
    (¬ (60 ≤ seconds ∧ seconds ≤ 86400) →
      update guildId seconds s
        = ⟨s.emit (.reply "⚠️ | The update interval must be between 60 and 86400 seconds."),
            false⟩) ∧
    update guildId 59 s
        = ⟨s.emit (.reply "⚠️ | The update interval must be between 60 and 86400 seconds."),
            false⟩ ∧
    update guildId 86401 s
        = ⟨s.emit (.reply "⚠️ | The update interval must be between 60 and 86400 seconds."),
            false⟩ := by
  have hbad : ∀ sec : Int, ¬ (60 ≤ sec ∧ sec ≤ 86400) →
      update guildId sec s
        = ⟨s.emit (.reply "⚠️ | The update interval must be between 60 and 86400 seconds."),
            false⟩ := by
    intro sec h
    have h1 : sec < 60 ∨ sec > 86400 := by omega
    simp [update, h1]
  have hgood : ∀ sec : Int, (60 ≤ sec ∧ sec ≤ 86400) → ¬ (sec < 60 ∨ sec > 86400) := by
    intro sec h
    omega
  refine ⟨⟨?_, ?_⟩, ?_, hbad seconds, hbad 59 (by omega), hbad 86401 (by omega)⟩
  · intro h
    simp only [update, hgood seconds h, if_false]
    cases s.serverUpdateIntervals.get guildId <;> simp [setInterval, clearInterval, State.emit]
  · intro h
    by_contra hn
    rw [hbad seconds hn] at h
    simp only [State.emit, List.append_cancel_left_eq, List.cons.injEq, Effect.reply.injEq,
      and_true] at h
    exact reply_texts_differ seconds h.symm
  · intro h
    simp only [update, hgood seconds h, if_false]
    cases s.serverUpdateIntervals.get guildId <;>
      simp [setInterval, clearInterval, State.emit, Obj.get_set_same]

/-- C3 at concrete inputs: 300 seconds on `oneGuild` installs a timer of
300000 ms. -/
theorem update_accepts_exactly_the_range_witness :
    (update "g1" 300 oneGuild).threw = false ∧
    (update "g1" 300 oneGuild).state.serverUpdateIntervals.get "g1" = some oneGuild.nextTimer ∧
    (⟨oneGuild.nextTimer, .updateStatus "g1", 300 * 1000⟩ : Timer)
      ∈ (update "g1" 300 oneGuild).state.timers :=
  (update_accepts_exactly_the_range "g1" 300 oneGuild).2.1 (by decide)


/-! ## Frame lemmas -/

theorem SameTimers.refl (a : State) : SameTimers a a := ⟨rfl, rfl, rfl, rfl⟩

theorem SameTimers.trans {a b c : State} (h1 : SameTimers a b) (h2 : SameTimers b c) :
    SameTimers a c :=
  ⟨h1.1.trans h2.1, h1.2.1.trans h2.2.1, h1.2.2.1.trans h2.2.2.1, h1.2.2.2.trans h2.2.2.2⟩

theorem emit_sameTimers (s : State) (e : Effect) : SameTimers (s.emit e) s :=
  ⟨rfl, rfl, rfl, rfl⟩

theorem saveTrackedUsers_sameTimers (env : Env) (s : State) :
    SameTimers (saveTrackedUsers env s).state s := by
  unfold saveTrackedUsers
  split <;> exact ⟨rfl, rfl, rfl, rfl⟩

theorem saveTrackedUsers_store (env : Env) (s : State) :
    (saveTrackedUsers env s).state.serverTrackedUsers = s.serverTrackedUsers := by
  unfold saveTrackedUsers
  split <;> rfl

theorem saveTrackedUsers_file (env : Env) (s : State) (h : env.writeOk = true) :
    (saveTrackedUsers env s).state.dataFile = (saveTrackedUsers env s).state.serverTrackedUsers := by
  simp [saveTrackedUsers, h, State.emit]

theorem sendAndStore_sameTimers (env : Env) (guildId channel : String) (embeds : List Embed)
    (s : State) : SameTimers (sendAndStore env guildId channel embeds s).state s := by
  unfold sendAndStore
  cases env.sendResult with
  | none => exact ⟨rfl, rfl, rfl, rfl⟩
  | some sent => exact (saveTrackedUsers_sameTimers env _).trans ⟨rfl, rfl, rfl, rfl⟩

theorem sendAndStore_store (env : Env) (guildId channel : String) (embeds : List Embed)
    (s : State) (g : GuildState) (hg : s.serverTrackedUsers.get guildId = some g) :
    SameUpToMessageId guildId s (sendAndStore env guildId channel embeds s).state := by
  unfold sendAndStore
  cases env.sendResult with
  | none => exact Or.inl rfl
  | some sent =>
    refine Or.inr ⟨g, toString sent, hg, ?_⟩
    simp [saveTrackedUsers_store, State.emit, hg]

theorem sendAndStore_file (env : Env) (guildId channel : String) (embeds : List Embed)
    (s : State) (hw : env.writeOk = true) (h : s.dataFile = s.serverTrackedUsers) :
    (sendAndStore env guildId channel embeds s).state.dataFile
      = (sendAndStore env guildId channel embeds s).state.serverTrackedUsers := by
  unfold sendAndStore
  cases env.sendResult with
  | none => exact h
  | some sent => exact saveTrackedUsers_file env _ hw

theorem resolveChannel_some {env : Env} {c : Option String} {channel : String}
    (h : resolveChannel env c = some channel) : c = some channel := by
  cases c with
  | none => simp [resolveChannel] at h
  | some cid =>
    simp only [resolveChannel] at h
    split at h
    · simpa using h
    · simp at h

theorem entry_of_channel {s : State} {guildId : String} {c : String}
    (h : (s.serverTrackedUsers.get guildId).bind (fun g => g.channelId) = some c) :
    ∃ g, s.serverTrackedUsers.get guildId = some g := by
  cases hg : s.serverTrackedUsers.get guildId with
  | none => simp [hg] at h
  | some g => exact ⟨g, rfl⟩

theorem postEmbeds_sameTimers (env : Env) (guildId channel : String) (embeds : List Embed)
    (s : State) : SameTimers (postEmbeds env guildId channel embeds s).state s := by
  unfold postEmbeds
  split
  · exact ⟨rfl, rfl, rfl, rfl⟩
  · split
    · exact sendAndStore_sameTimers _ _ _ _ _
    · split
      · exact sendAndStore_sameTimers _ _ _ _ _
      · split
        · exact ⟨rfl, rfl, rfl, rfl⟩
        · exact (sendAndStore_sameTimers _ _ _ _ _).trans ⟨rfl, rfl, rfl, rfl⟩

theorem postEmbeds_store (env : Env) (guildId channel : String) (embeds : List Embed)
    (s : State) (g : GuildState) (hg : s.serverTrackedUsers.get guildId = some g) :
    SameUpToMessageId guildId s (postEmbeds env guildId channel embeds s).state := by
  unfold postEmbeds
  split
  · exact Or.inl rfl
  · split
    · exact sendAndStore_store env guildId channel _ _ g hg
    · split
      · exact sendAndStore_store env guildId channel _ _ g hg
      · split
        · exact Or.inl rfl
        · exact sendAndStore_store env guildId channel _ (s.emit _) g hg

theorem postEmbeds_file (env : Env) (guildId channel : String) (embeds : List Embed)
    (s : State) (hw : env.writeOk = true) (h : s.dataFile = s.serverTrackedUsers) :
    (postEmbeds env guildId channel embeds s).state.dataFile
      = (postEmbeds env guildId channel embeds s).state.serverTrackedUsers := by
  unfold postEmbeds
  split
  · exact h
  · split
    · exact sendAndStore_file env _ _ _ _ hw h
    · split
      · exact sendAndStore_file env _ _ _ _ hw h
      · split
        · exact h
        · exact sendAndStore_file env _ _ _ _ hw h

theorem updateStatus_sameTimers (env : Env) (guildId : String) (s : State) :
    SameTimers (updateStatus env guildId s).state s := by
  unfold updateStatus
  split
  · exact ⟨rfl, rfl, rfl, rfl⟩
  · split
    · exact ⟨rfl, rfl, rfl, rfl⟩
    · exact (postEmbeds_sameTimers _ _ _ _ _).trans ⟨rfl, rfl, rfl, rfl⟩

theorem updateStatus_store (env : Env) (guildId : String) (s : State) :
    SameUpToMessageId guildId s (updateStatus env guildId s).state := by
  unfold updateStatus
  split
  · exact Or.inl rfl
  · rename_i channel hch
    obtain ⟨g, hg⟩ := entry_of_channel (resolveChannel_some hch)
    split
    · exact Or.inl rfl
    · rename_i embeds fx _
      exact postEmbeds_store env guildId channel embeds { s with effects := s.effects ++ fx } g hg

theorem updateStatus_file (env : Env) (guildId : String) (s : State)
    (hw : env.writeOk = true) (h : s.dataFile = s.serverTrackedUsers) :
    (updateStatus env guildId s).state.dataFile
      = (updateStatus env guildId s).state.serverTrackedUsers := by
  unfold updateStatus
  split
  · exact h
  · split
    · exact h
    · exact postEmbeds_file env _ _ _ _ hw h

theorem users_of_sameUpTo {guildId : String} {a b : State}
    (h : SameUpToMessageId guildId a b) (k : String) :
    (b.serverTrackedUsers.get k).map (fun g => g.users)
      = (a.serverTrackedUsers.get k).map (fun g => g.users) := by
  rcases h with h | ⟨g, mid, hg, h⟩
  · rw [h]
  · rw [h]
    by_cases hk : k = guildId
    · subst hk
      simp [Obj.get_set_same, hg]
    · rw [Obj.get_set_ne _ _ _ _ hk]

theorem trackedUsers_of_usersField {a b : State} {k : String}
    (h : (b.serverTrackedUsers.get k).map (fun g => g.users)
      = (a.serverTrackedUsers.get k).map (fun g => g.users)) :
    trackedUsers b k = trackedUsers a k := by
  simp only [trackedUsers]
  cases hb : b.serverTrackedUsers.get k <;> cases ha : a.serverTrackedUsers.get k <;>
    simp_all

/-- The tracked list of every guild after `stalk`, from the list before:
the entry of the guild exists afterwards and holds the old list, extended by
the profile when it was not in it. -/
theorem stalk_users (env : Env) (guildId channelId steamId : String) (s : State)
    (hwf : ∀ g, s.serverTrackedUsers.get guildId = some g → g.users ≠ none) :
    ((stalk env guildId channelId steamId s).state.serverTrackedUsers.get guildId).map
        (fun g => g.users)
      = some (some (if steamId ∈ trackedUsers s guildId then trackedUsers s guildId
          else trackedUsers s guildId ++ [steamId])) := by
  have tail : ∀ s2 : State,
      ((if (saveTrackedUsers env s2).threw = true then saveTrackedUsers env s2
        else if (updateStatus env guildId (saveTrackedUsers env s2).state).threw = true then
          updateStatus env guildId (saveTrackedUsers env s2).state
        else
          ⟨(updateStatus env guildId (saveTrackedUsers env s2).state).state.emit
              (.reply ("✅ | Added Steam ID " ++ steamId ++ " to tracked profiles")),
            false⟩ : Result).state.serverTrackedUsers.get guildId).map (fun g => g.users)
        = (s2.serverTrackedUsers.get guildId).map (fun g => g.users) := by
    intro s2
    have h1 := saveTrackedUsers_store env s2
    have h2 := users_of_sameUpTo (updateStatus_store env guildId (saveTrackedUsers env s2).state)
      guildId
    rw [h1] at h2
    split
    · rw [h1]
    · split
      · exact h2
      · exact h2
  cases hg : s.serverTrackedUsers.get guildId with
  | none =>
    simp only [stalk, hg, trackedUsers, Option.bind, Option.getD, List.not_mem_nil, if_false]
    rw [tail]
    simp [Obj.get_set_same]
  | some g =>
    cases hu : g.users with
    | none => exact absurd hu (hwf g hg)
    | some users =>
      by_cases hin : steamId ∈ users
      · simp [stalk, hg, hu, hin, trackedUsers, State.emit]
      · simp only [stalk, hg, hu, hin, trackedUsers, Option.bind, Option.getD, if_false]
        rw [tail]
        simp [Obj.get_set_same]


theorem stalk_no_users (env : Env) (guildId channelId steamId : String) (s : State)
    (g : GuildState) (hg : s.serverTrackedUsers.get guildId = some g) (hu : g.users = none) :
    stalk env guildId channelId steamId s = ⟨s, true⟩ := by
  simp [stalk, hg, hu]

/-- The tracked list of the guild after `stopstalk` is the list before without
the profile. -/
theorem stopstalk_users (env : Env) (guildId steamId : String) (s : State) :
    trackedUsers (stopstalk env guildId steamId s).state guildId
      = (trackedUsers s guildId).filter (fun id => id ≠ steamId) := by
  cases hg : s.serverTrackedUsers.get guildId with
  | none => simp [stopstalk, hg, trackedUsers, State.emit]
  | some g =>
    cases hu : g.users with
    | none => simp [stopstalk, hg, hu, trackedUsers]
    | some users =>
      by_cases hin : steamId ∈ users
      · simp only [stopstalk, hg, hu, hin, if_true]
        have h1 := saveTrackedUsers_store env
          { s with serverTrackedUsers := (s.serverTrackedUsers.set guildId
              ({ g with users := some (users.filter (fun id => id ≠ steamId)) })) }
        split
        · simp only [trackedUsers]
          rw [h1]
          simp [Obj.get_set_same, hg, hu]
        · simp only [trackedUsers, State.emit]
          rw [h1]
          simp [Obj.get_set_same, hg, hu]
      · have hf : users.filter (fun id => id ≠ steamId) = users := by
          rw [List.filter_eq_self]
          intro a ha
          have : a ≠ steamId := fun h => hin (h ▸ ha)
          simpa using this
        simp only [stopstalk, hg, hu, hin, if_false, trackedUsers, State.emit, Option.bind,
          Option.getD, hf]

/-! ## Tracking and untracking -/

/-- C1, the claim fails: on a store in which the guild lists the profile
twice, two `stalk` commands for that profile leave it listed twice. -/
theorem stalk_twice_keeps_duplicates :
    List.count "76561197960287930"
      (trackedUsers
        (stalk calmEnv "g1" "c1" "76561197960287930"
          (stalk calmEnv "g1" "c1" "76561197960287930" twiceListed).state).state "g1") = 2 := by
  decide

/-- C1, amended: for every guild and every store in which the guild has no
entry, or has an entry with a `users` list that holds the profile at most
once, `stalk` for the profile followed by `stalk` for it again leaves the
tracked list of the guild holding the profile exactly once.  The outcomes of
the outside calls do not matter. -/
theorem stalk_twice_tracks_once (env1 env2 : Env) (guildId c1 c2 steamId : String) (s : State)
    (hwf : ∀ g, s.serverTrackedUsers.get guildId = some g → g.users ≠ none)
    (hcount : List.count steamId (trackedUsers s guildId) ≤ 1) :
    List.count steamId
      (trackedUsers
        (stalk env2 guildId c2 steamId (stalk env1 guildId c1 steamId s).state).state guildId)
      = 1 := by
  have h1 := stalk_users env1 guildId c1 steamId s hwf
  generalize hl1 : (if steamId ∈ trackedUsers s guildId then trackedUsers s guildId
      else trackedUsers s guildId ++ [steamId]) = l1 at h1
  have hmem : steamId ∈ l1 := by
    rw [← hl1]
    split
    · assumption
    · simp
  have hc1 : List.count steamId l1 = 1 := by
    rw [← hl1]
    split
    · rename_i hin
      have := List.count_pos_iff.mpr hin
      omega
    · rename_i hin
      simp [List.count_eq_zero_of_not_mem hin]
  have ht1 : trackedUsers (stalk env1 guildId c1 steamId s).state guildId = l1 := by
    simp only [trackedUsers]
    cases hg : (stalk env1 guildId c1 steamId s).state.serverTrackedUsers.get guildId with
    | none => simp [hg] at h1
    | some g =>
      simp only [hg, Option.map_some', Option.some.injEq] at h1
      simp [h1]
  have hwf1 : ∀ g, (stalk env1 guildId c1 steamId s).state.serverTrackedUsers.get guildId
      = some g → g.users ≠ none := by
    intro g hg
    simp only [hg, Option.map_some', Option.some.injEq] at h1
    simp [h1]
  have h2 := stalk_users env2 guildId c2 steamId _ hwf1
  rw [ht1, if_pos hmem] at h2
  have ht2 : trackedUsers
      (stalk env2 guildId c2 steamId (stalk env1 guildId c1 steamId s).state).state guildId
      = l1 := by
    simp only [trackedUsers]
    cases hg : (stalk env2 guildId c2 steamId
        (stalk env1 guildId c1 steamId s).state).state.serverTrackedUsers.get guildId with
    | none => simp [hg] at h2
    | some g =>
      simp only [hg, Option.map_some', Option.some.injEq] at h2
      simp [h2]
  rw [ht2, hc1]

/-- C1, amended, at a concrete input: a new profile in a guild without entry. -/
theorem stalk_twice_tracks_once_witness :
    List.count "76561197960287930"
      (trackedUsers
        (stalk calmEnv "g1" "c1" "76561197960287930"
          (stalk calmEnv "g1" "c1" "76561197960287930" (startup sampleURLPredicate [])).state).state "g1") = 1 :=
  stalk_twice_tracks_once calmEnv calmEnv "g1" "c1" "c1" "76561197960287930" (startup sampleURLPredicate [])
    (by intro g hg; simp [startup, Obj.get] at hg) (by decide)

/-- C2, the claim fails: when the profile is already tracked, `stalk` changes
nothing and the following `stopstalk` removes it, so the list does not return
to its content before the `stalk`. -/
theorem stalk_stopstalk_loses_tracked :
    trackedUsers oneGuild "g1" = ["76561197960287930"] ∧
    trackedUsers
      (stopstalk calmEnv "g1" "76561197960287930"
        (stalk calmEnv "g1" "c1" "76561197960287930" oneGuild).state).state "g1" = [] := by
  decide

/-- C2, amended: for every guild, every store and every profile that is not
in the tracked list of the guild, `stalk` for the profile followed by
`stopstalk` for it returns the tracked list of the guild to the content (same
elements, same order) it had before.  The outcomes of the outside calls do not
matter. -/
theorem stalk_stopstalk_restores (env1 env2 : Env) (guildId channelId steamId : String)
    (s : State) (hnew : steamId ∉ trackedUsers s guildId) :
    trackedUsers
      (stopstalk env2 guildId steamId (stalk env1 guildId channelId steamId s).state).state
      guildId
      = trackedUsers s guildId := by
  rw [stopstalk_users]
  have hf : (trackedUsers s guildId).filter (fun id => id ≠ steamId) = trackedUsers s guildId := by
    rw [List.filter_eq_self]
    intro a ha
    have : a ≠ steamId := fun h => hnew (h ▸ ha)
    simpa using this
  by_cases hwf : ∀ g, s.serverTrackedUsers.get guildId = some g → g.users ≠ none
  · have h1 := stalk_users env1 guildId channelId steamId s hwf
    rw [if_neg hnew] at h1
    have ht1 : trackedUsers (stalk env1 guildId channelId steamId s).state guildId
        = trackedUsers s guildId ++ [steamId] := by
      generalize trackedUsers s guildId ++ [steamId] = l1 at h1
      simp only [trackedUsers]
      cases hg : (stalk env1 guildId channelId steamId s).state.serverTrackedUsers.get guildId with
      | none => simp [hg] at h1
      | some g =>
        simp only [hg, Option.map_some', Option.some.injEq] at h1
        simp [h1]
    rw [ht1, List.filter_append, hf]
    simp
  · push_neg at hwf
    obtain ⟨g, hg, hu⟩ := hwf
    rw [stalk_no_users env1 guildId channelId steamId s g hg hu]
    exact hf

/-- C2, amended, at a concrete input: a second profile in `oneGuild`. -/
theorem stalk_stopstalk_restores_witness :
    trackedUsers
      (stopstalk calmEnv "g1" "76561198000000000"
        (stalk calmEnv "g1" "c1" "76561198000000000" oneGuild).state).state "g1"
      = trackedUsers oneGuild "g1" :=
  stalk_stopstalk_restores calmEnv calmEnv "g1" "c1" "76561198000000000" oneGuild (by decide)


/-! ## Store and file -/

theorem stalk_file (env : Env) (guildId channelId steamId : String) (s : State)
    (hw : env.writeOk = true) (h : s.dataFile = s.serverTrackedUsers) :
    (stalk env guildId channelId steamId s).state.dataFile
      = (stalk env guildId channelId steamId s).state.serverTrackedUsers := by
  have tail : ∀ s2 : State,
      (if (saveTrackedUsers env s2).threw = true then saveTrackedUsers env s2
        else if (updateStatus env guildId (saveTrackedUsers env s2).state).threw = true then
          updateStatus env guildId (saveTrackedUsers env s2).state
        else
          ⟨(updateStatus env guildId (saveTrackedUsers env s2).state).state.emit
              (.reply ("✅ | Added Steam ID " ++ steamId ++ " to tracked profiles")),
            false⟩ : Result).state.dataFile
        = (if (saveTrackedUsers env s2).threw = true then saveTrackedUsers env s2
        else if (updateStatus env guildId (saveTrackedUsers env s2).state).threw = true then
          updateStatus env guildId (saveTrackedUsers env s2).state
        else
          ⟨(updateStatus env guildId (saveTrackedUsers env s2).state).state.emit
              (.reply ("✅ | Added Steam ID " ++ steamId ++ " to tracked profiles")),
            false⟩ : Result).state.serverTrackedUsers := by
    intro s2
    have h1 := saveTrackedUsers_file env s2 hw
    have h2 := updateStatus_file env guildId _ hw h1
    split
    · exact h1
    · split
      · exact h2
      · exact h2
  cases hg : s.serverTrackedUsers.get guildId with
  | none =>
    simp only [stalk, hg, List.not_mem_nil, if_false]
    exact tail _
  | some g =>
    cases hu : g.users with
    | none => simpa [stalk, hg, hu] using h
    | some users =>
      by_cases hin : steamId ∈ users
      · simpa [stalk, hg, hu, hin, State.emit] using h
      · simp only [stalk, hg, hu, hin, if_false]
        exact tail _

theorem stopstalk_file (env : Env) (guildId steamId : String) (s : State)
    (hw : env.writeOk = true) (h : s.dataFile = s.serverTrackedUsers) :
    (stopstalk env guildId steamId s).state.dataFile
      = (stopstalk env guildId steamId s).state.serverTrackedUsers := by
  cases hg : s.serverTrackedUsers.get guildId with
  | none => simpa [stopstalk, hg, State.emit] using h
  | some g =>
    cases hu : g.users with
    | none => simpa [stopstalk, hg, hu] using h
    | some users =>
      by_cases hin : steamId ∈ users
      · simp only [stopstalk, hg, hu, hin, if_true]
        split
        · exact saveTrackedUsers_file env _ hw
        · exact saveTrackedUsers_file env _ hw
      · simpa [stopstalk, hg, hu, hin, State.emit] using h

theorem update_store (guildId : String) (seconds : Int) (s : State) :
    (update guildId seconds s).state.serverTrackedUsers = s.serverTrackedUsers ∧
    (update guildId seconds s).state.dataFile = s.dataFile := by
  unfold update
  split
  · exact ⟨rfl, rfl⟩
  · cases s.serverUpdateIntervals.get guildId <;> exact ⟨rfl, rfl⟩

/-- C8: starting from a state whose file content equals the store, and with
the file write succeeding, the file content equals the store again after each
of `stalk`, `stopstalk`, `update`, a whole `interactionCreate` dispatch and an
`updateStatus` run, whether or not the run ended in an exception of an outside
call: every mutation of the store is followed by `saveTrackedUsers`. -/
theorem file_equals_store_after_each_operation (env : Env) (i : Interaction)
    (guildId channelId steamId : String) (seconds : Int) (s : State)
    (hw : env.writeOk = true) (h : s.dataFile = s.serverTrackedUsers) :
    (stalk env guildId channelId steamId s).state.dataFile
        = (stalk env guildId channelId steamId s).state.serverTrackedUsers ∧
    (stopstalk env guildId steamId s).state.dataFile
        = (stopstalk env guildId steamId s).state.serverTrackedUsers ∧
    (update guildId seconds s).state.dataFile
        = (update guildId seconds s).state.serverTrackedUsers ∧
    (updateStatus env guildId s).state.dataFile
        = (updateStatus env guildId s).state.serverTrackedUsers ∧
    (interactionCreate env i s).state.dataFile
        = (interactionCreate env i s).state.serverTrackedUsers := by
  have hupd : ∀ g sec, (update g sec s).state.dataFile
      = (update g sec s).state.serverTrackedUsers := by
    intro g sec
    rw [(update_store g sec s).1, (update_store g sec s).2, h]
  refine ⟨stalk_file env _ _ _ s hw h, stopstalk_file env _ _ s hw h, hupd _ _,
    updateStatus_file env _ s hw h, ?_⟩
  unfold interactionCreate
  split
  · exact h
  · split
    · exact h
    · split
      · exact stalk_file env _ _ _ s hw h
      · split
        · exact stopstalk_file env _ _ s hw h
        · split
          · exact hupd _ _
          · exact h

/-- C8 at a concrete input: the first `stalk` in a guild, from the empty
store. -/
theorem file_equals_store_after_each_operation_witness :
    (stalk calmEnv "g1" "c1" "76561197960287930" (startup sampleURLPredicate [])).state.dataFile
      = (stalk calmEnv "g1" "c1" "76561197960287930" (startup sampleURLPredicate [])).state.serverTrackedUsers :=
  (file_equals_store_after_each_operation calmEnv ⟨true, true, "stalk", "g1", "c1", "p", 60⟩
    "g1" "c1" "76561197960287930" 60 (startup sampleURLPredicate []) rfl rfl).1


/-! ## Scheduler -/

theorem stalk_sameTimers (env : Env) (guildId channelId steamId : String) (s : State) :
    SameTimers (stalk env guildId channelId steamId s).state s := by
  have tail : ∀ s2 : State, SameTimers s2 s →
      SameTimers
        (if (saveTrackedUsers env s2).threw = true then saveTrackedUsers env s2
        else if (updateStatus env guildId (saveTrackedUsers env s2).state).threw = true then
          updateStatus env guildId (saveTrackedUsers env s2).state
        else
          ⟨(updateStatus env guildId (saveTrackedUsers env s2).state).state.emit
              (.reply ("✅ | Added Steam ID " ++ steamId ++ " to tracked profiles")),
            false⟩ : Result).state s := by
    intro s2 h
    have h1 := (saveTrackedUsers_sameTimers env s2).trans h
    have h2 := (updateStatus_sameTimers env guildId (saveTrackedUsers env s2).state).trans h1
    split
    · exact h1
    · split
      · exact h2
      · exact (emit_sameTimers _ _).trans h2
  cases hg : s.serverTrackedUsers.get guildId with
  | none =>
    simp only [stalk, hg, List.not_mem_nil, if_false]
    exact tail _ ⟨rfl, rfl, rfl, rfl⟩
  | some g =>
    cases hu : g.users with
    | none =>
      simp only [stalk, hg, hu]
      exact SameTimers.refl s
    | some users =>
      by_cases hin : steamId ∈ users
      · simp only [stalk, hg, hu, hin, if_true]
        exact emit_sameTimers _ _
      · simp only [stalk, hg, hu, hin, if_false]
        exact tail _ ⟨rfl, rfl, rfl, rfl⟩

theorem stopstalk_sameTimers (env : Env) (guildId steamId : String) (s : State) :
    SameTimers (stopstalk env guildId steamId s).state s := by
  cases hg : s.serverTrackedUsers.get guildId with
  | none =>
    simp only [stopstalk, hg]
    exact emit_sameTimers _ _
  | some g =>
    cases hu : g.users with
    | none =>
      simp only [stopstalk, hg, hu]
      exact SameTimers.refl s
    | some users =>
      by_cases hin : steamId ∈ users
      · simp only [stopstalk, hg, hu, hin, if_true]
        split
        · exact (saveTrackedUsers_sameTimers env _).trans ⟨rfl, rfl, rfl, rfl⟩
        · exact (emit_sameTimers _ _).trans
            ((saveTrackedUsers_sameTimers env _).trans ⟨rfl, rfl, rfl, rfl⟩)
      · simp only [stopstalk, hg, hu, hin, if_false]
        exact emit_sameTimers _ _

theorem TimersConsistent.of_sameTimers {a b : State} (h : SameTimers a b)
    (hb : TimersConsistent b) : TimersConsistent a := by
  obtain ⟨h1, h2, h3, h4⟩ := h
  unfold TimersConsistent
  rw [h1, h2, h3, h4]
  exact hb

/-- C4, the code at the failing input: after startup on an empty store and the
`ready` event, the first `stalk` in guild `g1` tracks the profile, yet the
registry has no entry for `g1` and no active timer runs `updateStatus` for
it. -/
theorem first_stalk_installs_no_timer :
    trackedUsers
        (stalk calmEnv "g1" "c1" "76561197960287930"
          (ready 1 (fun _ => calmEnv) (startup sampleURLPredicate []))).state "g1" = ["76561197960287930"] ∧
    (stalk calmEnv "g1" "c1" "76561197960287930"
        (ready 1 (fun _ => calmEnv) (startup sampleURLPredicate []))).state.serverUpdateIntervals.get "g1"
      = none ∧
    updateTimers
        (stalk calmEnv "g1" "c1" "76561197960287930"
          (ready 1 (fun _ => calmEnv) (startup sampleURLPredicate []))).state "g1" = [] := by
  decide


theorem timer_eq_of_id {l : List Timer} (hnd : (l.map (fun t => t.id)).Nodup) {a b : Timer}
    (ha : a ∈ l) (hb : b ∈ l) (h : a.id = b.id) : a = b :=
  List.inj_on_of_nodup_map hnd ha hb h

/-- Installing a fresh `updateStatus` timer for a guild over a list `base`
that kept every other timer and none of the guild. -/
theorem consistent_install_update {s t : State} (guildId : String) (delay : Int)
    (base : List Timer) (hs : TimersConsistent s) (hsub : base.Sublist s.timers)
    (hno : ∀ x ∈ base, x.callback ≠ .updateStatus guildId)
    (hkeep : ∀ x ∈ s.timers, x.callback ≠ .updateStatus guildId → x ∈ base)
    (ht : t.timers = base ++ [⟨s.nextTimer, .updateStatus guildId, delay⟩])
    (hr : t.serverUpdateIntervals = s.serverUpdateIntervals.set guildId s.nextTimer)
    (hn : t.nextTimer = s.nextTimer + 1) (hsi : t.statusInterval = s.statusInterval) :
    TimersConsistent t ∧
      updateTimers t guildId = [⟨s.nextTimer, .updateStatus guildId, delay⟩] := by
  obtain ⟨i1, i2, i3, i4, i5⟩ := hs
  have hmem : ∀ x ∈ base, x ∈ s.timers := fun x hx => hsub.subset hx
  refine ⟨⟨?_, ?_, ?_, ?_, ?_⟩, ?_⟩
  · intro x hx
    rw [ht, List.mem_append, List.mem_singleton] at hx
    rw [hn]
    rcases hx with hx | hx
    · have := i1 x (hmem x hx)
      omega
    · subst hx
      simp
  · rw [ht, List.map_append, List.nodup_append]
    refine ⟨(hsub.map _).nodup i2, by simp, ?_⟩
    intro a ha hb
    simp only [List.map_cons, List.map_nil, List.mem_singleton] at hb
    rw [List.mem_map] at ha
    obtain ⟨x, hx, hxa⟩ := ha
    have := i1 x (hmem x hx)
    omega
  · intro x hx g hg
    rw [ht, List.mem_append, List.mem_singleton] at hx
    rw [hr]
    rcases hx with hx | hx
    · have hne : g ≠ guildId := by
        intro h
        subst h
        exact hno x hx hg
      rw [Obj.get_set_ne _ _ _ _ hne]
      exact i3 x (hmem x hx) g hg
    · subst hx
      simp only [Callback.updateStatus.injEq] at hg
      subst hg
      exact Obj.get_set_same _ _ _
  · intro g h hg
    rw [hr] at hg
    rw [ht]
    by_cases hne : g = guildId
    · subst hne
      rw [Obj.get_set_same] at hg
      simp only [Option.some.injEq] at hg
      subst hg
      exact ⟨⟨s.nextTimer, .updateStatus g, delay⟩, by simp, rfl, rfl⟩
    · rw [Obj.get_set_ne _ _ _ _ hne] at hg
      obtain ⟨x, hx, hid, hcb⟩ := i4 g h hg
      have hxb : x ∈ base := by
        apply hkeep x hx
        rw [hcb]
        simpa using hne
      exact ⟨x, by simp [hxb], hid, hcb⟩
  · intro h hh
    rw [hsi] at hh
    obtain ⟨x, hx, hid, st, hcb⟩ := i5 h hh
    have hxb : x ∈ base := by
      apply hkeep x hx
      rw [hcb]
      simp
    rw [ht]
    exact ⟨x, by simp [hxb], hid, st, hcb⟩
  · have hbase : base.filter (fun x => x.callback = .updateStatus guildId) = [] := by
      rw [List.filter_eq_nil_iff]
      intro x hx
      simpa using hno x hx
    simp [updateTimers, ht, List.filter_append, hbase]

/-- Installing a fresh `setActivity` timer over a list `base` that kept every
`updateStatus` timer. -/
theorem consistent_install_status {s t : State} (statuses : List String) (delay : Int)
    (base : List Timer) (hs : TimersConsistent s) (hsub : base.Sublist s.timers)
    (hkeep : ∀ x ∈ s.timers, ∀ g, x.callback = .updateStatus g → x ∈ base)
    (ht : t.timers = base ++ [⟨s.nextTimer, .setActivity statuses, delay⟩])
    (hr : t.serverUpdateIntervals = s.serverUpdateIntervals)
    (hn : t.nextTimer = s.nextTimer + 1) (hsi : t.statusInterval = some s.nextTimer) :
    TimersConsistent t := by
  obtain ⟨i1, i2, i3, i4, _⟩ := hs
  have hmem : ∀ x ∈ base, x ∈ s.timers := fun x hx => hsub.subset hx
  refine ⟨?_, ?_, ?_, ?_, ?_⟩
  · intro x hx
    rw [ht, List.mem_append, List.mem_singleton] at hx
    rw [hn]
    rcases hx with hx | hx
    · have := i1 x (hmem x hx)
      omega
    · subst hx
      simp
  · rw [ht, List.map_append, List.nodup_append]
    refine ⟨(hsub.map _).nodup i2, by simp, ?_⟩
    intro a ha hb
    simp only [List.map_cons, List.map_nil, List.mem_singleton] at hb
    rw [List.mem_map] at ha
    obtain ⟨x, hx, hxa⟩ := ha
    have := i1 x (hmem x hx)
    omega
  · intro x hx g hg
    rw [ht, List.mem_append, List.mem_singleton] at hx
    rw [hr]
    rcases hx with hx | hx
    · exact i3 x (hmem x hx) g hg
    · subst hx
      simp at hg
  · intro g h hg
    rw [hr] at hg
    obtain ⟨x, hx, hid, hcb⟩ := i4 g h hg
    rw [ht]
    exact ⟨x, by simp [hkeep x hx g hcb], hid, hcb⟩
  · intro h hh
    rw [hsi] at hh
    simp only [Option.some.injEq] at hh
    subst hh
    rw [ht]
    exact ⟨⟨s.nextTimer, .setActivity statuses, delay⟩, by simp, rfl, statuses, rfl⟩


theorem base_facts {s : State} (hs : TimersConsistent s) (guildId : String) :
    ∀ base : List Timer,
      (base = match s.serverUpdateIntervals.get guildId with
        | some h => s.timers.filter (fun x => x.id ≠ h)
        | none => s.timers) →
      base.Sublist s.timers ∧
      (∀ x ∈ base, x.callback ≠ .updateStatus guildId) ∧
      (∀ x ∈ s.timers, x.callback ≠ .updateStatus guildId → x ∈ base) ∧
      (∀ h, s.serverUpdateIntervals.get guildId = some h → ∀ x ∈ base, x.id ≠ h) := by
  obtain ⟨i1, i2, i3, i4, i5⟩ := hs
  intro base hbase
  cases hreg : s.serverUpdateIntervals.get guildId with
  | none =>
    rw [hreg] at hbase
    subst hbase
    refine ⟨List.Sublist.refl _, ?_, fun x hx _ => hx, ?_⟩
    · intro x hx hcb
      have := i3 x hx guildId hcb
      rw [hreg] at this
      simp at this
    · intro h hh
      simp at hh
  | some h =>
    rw [hreg] at hbase
    subst hbase
    refine ⟨List.filter_sublist _, ?_, ?_, ?_⟩
    · intro x hx hcb
      rw [List.mem_filter] at hx
      have := i3 x hx.1 guildId hcb
      rw [hreg] at this
      simp only [Option.some.injEq] at this
      simp [this] at hx
    · intro x hx hcb
      rw [List.mem_filter]
      refine ⟨hx, ?_⟩
      obtain ⟨y, hy, hid, hycb⟩ := i4 guildId h hreg
      have hne : x.id ≠ h := by
        intro hxh
        have := timer_eq_of_id i2 hx hy (hxh.trans hid.symm)
        rw [this] at hcb
        exact hcb hycb
      simpa using hne
    · intro h1 hh x hx
      simp only [Option.some.injEq] at hh
      subst hh
      rw [List.mem_filter] at hx
      simpa using hx.2

/-- An accepted `update` in a consistent state: the state stays consistent,
the only `updateStatus` timer of the guild is the new one, the registry records
it, and the handle recorded before is no longer active. -/
theorem update_accepted (guildId : String) (seconds : Int) (s : State)
    (hs : TimersConsistent s) (h60 : 60 ≤ seconds) (hmax : seconds ≤ 86400) :
    TimersConsistent (update guildId seconds s).state ∧
    updateTimers (update guildId seconds s).state guildId
      = [⟨s.nextTimer, .updateStatus guildId, seconds * 1000⟩] ∧
    (update guildId seconds s).state.serverUpdateIntervals.get guildId = some s.nextTimer ∧
    (∀ h, s.serverUpdateIntervals.get guildId = some h →
      ∀ x ∈ (update guildId seconds s).state.timers, x.id ≠ h) := by
  have hrange : ¬ (seconds < 60 ∨ seconds > 86400) := by omega
  obtain ⟨b1, b2, b3, b4⟩ := base_facts hs guildId _ rfl
  have ht : (update guildId seconds s).state.timers
      = (match s.serverUpdateIntervals.get guildId with
          | some h => s.timers.filter (fun x => x.id ≠ h)
          | none => s.timers) ++ [⟨s.nextTimer, .updateStatus guildId, seconds * 1000⟩] := by
    simp only [update, hrange, if_false]
    cases s.serverUpdateIntervals.get guildId <;> rfl
  have hr : (update guildId seconds s).state.serverUpdateIntervals
      = s.serverUpdateIntervals.set guildId s.nextTimer := by
    simp only [update, hrange, if_false]
    cases s.serverUpdateIntervals.get guildId <;> rfl
  have hn : (update guildId seconds s).state.nextTimer = s.nextTimer + 1 := by
    simp only [update, hrange, if_false]
    cases s.serverUpdateIntervals.get guildId <;> rfl
  have hsi : (update guildId seconds s).state.statusInterval = s.statusInterval := by
    simp only [update, hrange, if_false]
    cases s.serverUpdateIntervals.get guildId <;> rfl
  obtain ⟨c1, c2⟩ := consistent_install_update guildId (seconds * 1000) _ hs b1 b2 b3 ht hr hn hsi
  refine ⟨c1, c2, ?_, ?_⟩
  · rw [hr, Obj.get_set_same]
  · intro h hh x hx
    rw [ht, List.mem_append, List.mem_singleton] at hx
    rcases hx with hx | hx
    · exact b4 h hh x hx
    · subst hx
      obtain ⟨y, hy, hid, _⟩ := hs.2.2.2.1 guildId h hh
      have := hs.1 y hy
      simp only
      omega

theorem update_consistent (guildId : String) (seconds : Int) (s : State)
    (hs : TimersConsistent s) : TimersConsistent (update guildId seconds s).state := by
  by_cases hrange : 60 ≤ seconds ∧ seconds ≤ 86400
  · exact (update_accepted guildId seconds s hs hrange.1 hrange.2).1
  · have h1 : seconds < 60 ∨ seconds > 86400 := by omega
    simp only [update, h1, if_true]
    exact TimersConsistent.of_sameTimers (emit_sameTimers _ _) hs

theorem updateBotStatus_consistent (totalServers : Nat) (s : State)
    (hs : TimersConsistent s) : TimersConsistent (updateBotStatus totalServers s) := by
  cases hsi : s.statusInterval with
  | none =>
    refine consistent_install_status (statuses totalServers s) 15000 s.timers hs
      (List.Sublist.refl _)
      (fun x hx _ _ => hx) ?_ ?_ ?_ ?_
    · simp only [updateBotStatus, hsi, setInterval]
    · simp only [updateBotStatus, hsi, setInterval]
    · simp only [updateBotStatus, hsi, setInterval]
    · simp only [updateBotStatus, hsi, setInterval]
  | some h =>
    refine consistent_install_status (statuses totalServers s) 15000
      (s.timers.filter (fun x => x.id ≠ h)) hs (List.filter_sublist _) ?_ ?_ ?_ ?_ ?_
    · intro x hx g hcb
      rw [List.mem_filter]
      refine ⟨hx, ?_⟩
      obtain ⟨y, hy, hid, st, hycb⟩ := hs.2.2.2.2 h hsi
      have hne : x.id ≠ h := by
        intro hxh
        have := timer_eq_of_id hs.2.1 hx hy (hxh.trans hid.symm)
        rw [this, hycb] at hcb
        simp at hcb
      simpa using hne
    · simp only [updateBotStatus, hsi, setInterval, clearInterval]
    · simp only [updateBotStatus, hsi, setInterval, clearInterval]
    · simp only [updateBotStatus, hsi, setInterval, clearInterval]
    · simp only [updateBotStatus, hsi, setInterval, clearInterval]

theorem readyGuild_consistent (env : String → Env) (s : State) (guildId : String)
    (hs : TimersConsistent s) : TimersConsistent (readyGuild env s guildId) := by
  have h1 : TimersConsistent (updateStatus (env guildId) guildId s).state :=
    TimersConsistent.of_sameTimers (updateStatus_sameTimers _ _ _) hs
  unfold readyGuild
  simp only
  generalize (updateStatus (env guildId) guildId s).state = s1 at h1
  cases hreg : s1.serverUpdateIntervals.get guildId with
  | some h => exact h1
  | none =>
    obtain ⟨b1, b2, b3, _⟩ := base_facts h1 guildId s1.timers (by rw [hreg])
    refine (consistent_install_update guildId DEFAULT_UPDATE_INTERVAL s1.timers h1 b1 b2 b3
      ?_ ?_ ?_ ?_).1
    · simp only [setInterval]
    · simp only [setInterval]
    · simp only [setInterval]
    · simp only [setInterval]

theorem ready_consistent (totalServers : Nat) (env : String → Env) (s : State)
    (hs : TimersConsistent s) : TimersConsistent (ready totalServers env s) := by
  have h1 : TimersConsistent
      ((updateBotStatus totalServers (s.emit (.consoleLog "✅"))).emit .registerCommands) :=
    TimersConsistent.of_sameTimers (emit_sameTimers _ _)
      (updateBotStatus_consistent _ _ (TimersConsistent.of_sameTimers (emit_sameTimers _ _) hs))
  unfold ready
  simp only
  generalize ((updateBotStatus totalServers (s.emit (.consoleLog "✅"))).emit
    .registerCommands) = s2 at h1
  generalize s2.serverTrackedUsers.keys = ks
  induction ks generalizing s2 with
  | nil => exact h1
  | cons k ks ih => exact ih _ (readyGuild_consistent env s2 k h1)

theorem interactionCreate_consistent (env : Env) (i : Interaction) (s : State)
    (hs : TimersConsistent s) : TimersConsistent (interactionCreate env i s).state := by
  unfold interactionCreate
  split
  · exact hs
  · split
    · exact TimersConsistent.of_sameTimers (emit_sameTimers _ _) hs
    · split
      · exact TimersConsistent.of_sameTimers (stalk_sameTimers _ _ _ _ _) hs
      · split
        · exact TimersConsistent.of_sameTimers (stopstalk_sameTimers _ _ _ _) hs
        · split
          · exact update_consistent _ _ _ hs
          · exact hs

theorem startup_consistent (accepts : String → Bool) (file : Obj GuildState) : TimersConsistent (startup accepts file) := by
  refine ⟨?_, ?_, ?_, ?_, ?_⟩ <;> simp [startup, Obj.get]

theorem run_consistent (s : State) (events : List Event) (hs : TimersConsistent s) :
    TimersConsistent (run s events) := by
  induction events generalizing s with
  | nil => exact hs
  | cons e es ih =>
    apply ih
    cases e with
    | ready n env => exact ready_consistent n env s hs
    | interactionCreate env i => exact interactionCreate_consistent env i s hs

theorem updateTimers_length_le_one {s : State} (hs : TimersConsistent s) (guildId : String) :
    (updateTimers s guildId).length ≤ 1 := by
  obtain ⟨_, i2, i3, _, _⟩ := hs
  have hnd : ((updateTimers s guildId).map (fun t => t.id)).Nodup :=
    ((List.filter_sublist _).map _).nodup i2
  cases hreg : s.serverUpdateIntervals.get guildId with
  | none =>
    have : updateTimers s guildId = [] := by
      unfold updateTimers
      rw [List.filter_eq_nil_iff]
      intro x hx hcb
      have := i3 x hx guildId (by simpa using hcb)
      rw [hreg] at this
      simp at this
    simp [this]
  | some h =>
    have hsub : (updateTimers s guildId).map (fun t => t.id) ⊆ [h] := by
      intro a ha
      rw [List.mem_map] at ha
      obtain ⟨x, hx, hxa⟩ := ha
      unfold updateTimers at hx
      rw [List.mem_filter] at hx
      have := i3 x hx.1 guildId (by simpa using hx.2)
      rw [hreg] at this
      simp only [Option.some.injEq] at this
      simp [← hxa, this]
    have := (List.subperm_of_subset hnd hsub).length_le
    simpa using this


/-- C5: in every state reached from startup (on any file content) by any
sequence of `ready` and `interactionCreate` events, the latter covering
`stalk`, `stopstalk` and `update`: a guild has at most one active
`updateStatus` timer, and each such timer is the one the registry records for
the guild.  An accepted `update` in such a state leaves the new timer as the
only active `updateStatus` timer of the guild, recorded in the registry, and
the handle recorded before is no longer active. -/
theorem one_update_timer_per_guild (accepts : String → Bool) (file : Obj GuildState)
    (events : List Event)
    (guildId : String) :
    (updateTimers (run (startup accepts file) events) guildId).length ≤ 1 ∧
    (∀ t ∈ updateTimers (run (startup accepts file) events) guildId,
      (run (startup accepts file) events).serverUpdateIntervals.get guildId = some t.id) ∧
    (∀ seconds : Int, 60 ≤ seconds → seconds ≤ 86400 →
      updateTimers (update guildId seconds (run (startup accepts file) events)).state guildId
        = [⟨(run (startup accepts file) events).nextTimer, .updateStatus guildId, seconds * 1000⟩] ∧
      (update guildId seconds (run (startup accepts file) events)).state.serverUpdateIntervals.get
          guildId = some (run (startup accepts file) events).nextTimer ∧
      (∀ h, (run (startup accepts file) events).serverUpdateIntervals.get guildId = some h →
        ∀ x ∈ (update guildId seconds (run (startup accepts file) events)).state.timers, x.id ≠ h)) := by
  have hs := run_consistent (startup accepts file) events (startup_consistent accepts file)
  refine ⟨updateTimers_length_le_one hs guildId, ?_, ?_⟩
  · intro t ht
    unfold updateTimers at ht
    rw [List.mem_filter] at ht
    exact hs.2.2.1 t ht.1 guildId (by simpa using ht.2)
  · intro seconds h60 hmax
    exact (update_accepted guildId seconds _ hs h60 hmax).2

/-- C5 on `sampleEvents`: after `ready` and two `update` commands the guild
`g1` has one timer, and a third `update` replaces it. -/
theorem one_update_timer_per_guild_witness :
    (updateTimers (run (startup sampleURLPredicate oneGuild.serverTrackedUsers) sampleEvents) "g1").length ≤ 1 ∧
    updateTimers
        (update "g1" 600 (run (startup sampleURLPredicate oneGuild.serverTrackedUsers) sampleEvents)).state "g1"
      = [⟨(run (startup sampleURLPredicate oneGuild.serverTrackedUsers) sampleEvents).nextTimer,
          .updateStatus "g1", 600 * 1000⟩] :=
  ⟨(one_update_timer_per_guild sampleURLPredicate oneGuild.serverTrackedUsers sampleEvents "g1").1,
   ((one_update_timer_per_guild sampleURLPredicate oneGuild.serverTrackedUsers sampleEvents "g1").2.2 600
      (by decide) (by decide)).1⟩

/-! ## Renderer and update engine -/


theorem jsLength_append (a b : String) : jsLength (a ++ b) = jsLength a + jsLength b := by
  simp [jsLength, String.data_append, List.map_append, List.sum_append]

theorem jsLength_pos {t : String} (h : t ≠ "") : 1 ≤ jsLength t := by
  obtain ⟨data⟩ := t
  cases data with
  | nil => exact absurd rfl h
  | cons c cs =>
    simp only [jsLength, List.map_cons, List.sum_cons]
    split <;> omega

theorem getSteamStatus_record {steamId : String} {o : HttpOutcome} {r : SteamStatus}
    (h : getSteamStatus steamId o = some r) : r.id = steamId ∧ r.game ≠ "" := by
  unfold getSteamStatus at h
  split at h
  · rename_i st hst
    simp only [Option.some.injEq] at h
    subst h
    unfold getSteamStatusTry at hst
    split at hst
    · simp at hst
    · split at hst
      · simp at hst
      · split at hst
        · simp at hst
        · simp at hst
        · rename_i player _ _
          simp only [Except.ok.injEq] at hst
          rw [← hst]
          refine ⟨rfl, ?_⟩
          simp only [orElse]
          split
          · decide
          · split
            · decide
            · assumption
  · simp at h

/-- A record that passes validation is accepted by every setter. -/
theorem settersAccept_of_passes (accepts : String → Bool) (env : Env) (pos : Nat)
    (steamId : String) (r : SteamStatus) (hgame : r.game ≠ "")
    (h : passesValidation accepts steamId r) :
    settersAccept accepts (embedData env pos steamId r) = true := by
  obtain ⟨h1, h2, h3, h4, h5⟩ := h
  have htempl : templ r.name = r.name.getD "undefined" := by
    cases r.name <;> rfl
  have himage : "https://steamcdn-a.akamaihd.net/steam/apps/" ++ templ none ++ "/header.jpg"
      = "https://steamcdn-a.akamaihd.net/steam/apps/undefined/header.jpg" := by decide
  have htitle : 1 ≤ jsLength ("👤  " ++ r.name.getD "undefined") := by
    rw [jsLength_append]
    have : jsLength "👤  " = 4 := by decide
    omega
  have hlink : 1 ≤ jsLength ("[Link](https://steamcommunity.com/profiles/" ++ steamId ++ ")") := by
    rw [jsLength_append, jsLength_append]
    have : jsLength ")" = 1 := by decide
    omega
  have hgame1 := jsLength_pos hgame
  have hn1 : jsLength "Profile" = 7 := by decide
  have hn2 : jsLength "Currently Playing" = 17 := by decide
  have hn3 : jsLength "\u200B" = 1 := by decide
  have hv3 : jsLength "[🔗 Add to Your Server]()" = 25 := by decide
  have hthumb : (match r.avatar with
      | none => true
      | some url => accepts url) = true := by
    cases hav : r.avatar with
    | none => rfl
    | some url => simpa [hav] using h2
  simp only [settersAccept, embedData, titlePredicate, embedFieldPredicate, htempl, himage,
    List.all_cons, List.all_nil, hn1, hn2, hn3, hv3, hthumb, h3, Bool.and_true,
    Bool.true_and, Bool.and_eq_true, decide_eq_true_eq]
  omega


theorem settersAccept_env (accepts : String → Bool) (env1 env2 : Env) (pos1 pos2 : Nat)
    (steamId : String) (r : SteamStatus) :
    settersAccept accepts (embedData env1 pos1 steamId r)
      = settersAccept accepts (embedData env2 pos2 steamId r) := rfl

/-- The loop when every successfully fetched record is accepted by the
setters: it ends normally with one card per record. -/
theorem collectEmbeds_of_accepted (accepts : String → Bool) (env : Env) (users : List String) :
    ∀ (pos : Nat) (embeds : List Embed) (fx : List Effect),
      (∀ ip ∈ users.enumFrom pos, ∀ r, getSteamStatus ip.2 (env.steam ip.1 ip.2) = some r →
        settersAccept accepts (embedData env ip.1 ip.2 r) = true) →
      collectEmbeds accepts env pos users embeds fx
        = (some (embeds ++ (users.enumFrom pos).filterMap (fun ip =>
              (getSteamStatus ip.2 (env.steam ip.1 ip.2)).map (embedData env ip.1 ip.2))),
           fx ++ (users.enumFrom pos).flatMap (fun ip =>
              getSteamStatusEffects ip.2 (env.steam ip.1 ip.2))) := by
  induction users with
  | nil => intro pos embeds fx _; simp [collectEmbeds]
  | cons u rest ih =>
    intro pos embeds fx hacc
    have hrest : ∀ ip ∈ rest.enumFrom (pos + 1), ∀ r,
        getSteamStatus ip.2 (env.steam ip.1 ip.2) = some r →
        settersAccept accepts (embedData env ip.1 ip.2 r) = true := by
      intro ip hip r hr
      exact hacc ip (by simp [List.enumFrom_cons, hip]) r hr
    cases h : getSteamStatus u (env.steam pos u) with
    | none => simp [collectEmbeds, h, ih _ _ _ hrest, List.enumFrom_cons, List.append_assoc]
    | some r =>
      have hu := hacc (pos, u) (by simp [List.enumFrom_cons]) r h
      simp only at hu
      simp [collectEmbeds, h, mkEmbed, hu, ih _ _ _ hrest, List.enumFrom_cons,
        List.append_assoc]

/-- The loop ends normally only when every successfully fetched record is
accepted by the setters. -/
theorem accepted_of_collectEmbeds (accepts : String → Bool) (env : Env) (users : List String) :
    ∀ (pos : Nat) (embeds : List Embed) (fx : List Effect) (cards : List Embed),
      (collectEmbeds accepts env pos users embeds fx).1 = some cards →
      ∀ ip ∈ users.enumFrom pos, ∀ r, getSteamStatus ip.2 (env.steam ip.1 ip.2) = some r →
        settersAccept accepts (embedData env ip.1 ip.2 r) = true := by
  induction users with
  | nil => intro pos embeds fx cards _ ip hip; simp at hip
  | cons u rest ih =>
    intro pos embeds fx cards hc ip hip r hr
    simp only [List.enumFrom_cons, List.mem_cons] at hip
    cases h : getSteamStatus u (env.steam pos u) with
    | none =>
      simp only [collectEmbeds, h] at hc
      rcases hip with hip | hip
      · subst hip
        simp only [h] at hr
        simp at hr
      · exact ih _ _ _ _ hc ip hip r hr
    | some r0 =>
      simp only [collectEmbeds, h, mkEmbed] at hc
      by_cases hacc : settersAccept accepts (embedData env pos u r0) = true
      · simp only [hacc, if_true] at hc
        rcases hip with hip | hip
        · subst hip
          simp only [h, Option.some.injEq] at hr
          subst hr
          exact hacc
        · exact ih _ _ _ _ hc ip hip r hr
      · simp [hacc] at hc

theorem collectEmbeds_no_send (accepts : String → Bool) (env : Env) (users : List String)
    (c : String) (e : List Embed) :
    ∀ (pos : Nat) (embeds : List Embed) (fx : List Effect), Effect.send c e ∉ fx →
      Effect.send c e ∉ (collectEmbeds accepts env pos users embeds fx).2 := by
  induction users with
  | nil => intro pos embeds fx h; simpa [collectEmbeds] using h
  | cons u rest ih =>
    intro pos embeds fx h
    have h1 : Effect.send c e ∉ fx ++ getSteamStatusEffects u (env.steam pos u) := by
      rw [List.mem_append, not_or]
      refine ⟨h, ?_⟩
      unfold getSteamStatusEffects
      split <;> simp
    simp only [collectEmbeds]
    split
    · exact ih _ _ _ h1
    · split
      · exact h1
      · exact ih _ _ _ h1

theorem filterMap_length_fetched (env : Env) (l : List (Nat × String)) :
    (l.filterMap (fun ip =>
        (getSteamStatus ip.2 (env.steam ip.1 ip.2)).map (embedData env ip.1 ip.2))).length
      = (l.filterMap (fun ip => getSteamStatus ip.2 (env.steam ip.1 ip.2))).length := by
  induction l with
  | nil => rfl
  | cons ip l ih =>
    cases h : getSteamStatus ip.2 (env.steam ip.1 ip.2) <;>
      simp [List.filterMap_cons, h, ih]

theorem sendAndStore_sends (env : Env) (guildId channel : String) (embeds : List Embed)
    (s : State) :
    Effect.send channel embeds ∈ (sendAndStore env guildId channel embeds s).state.effects := by
  unfold sendAndStore
  cases env.sendResult with
  | none => simp [State.emit]
  | some sent =>
    simp only [saveTrackedUsers]
    split <;> simp [State.emit]

theorem postEmbeds_posts (env : Env) (guildId channel : String) (embeds : List Embed)
    (s : State) (hne : embeds ≠ []) :
    (∃ m, Effect.edit channel m embeds ∈ (postEmbeds env guildId channel embeds s).state.effects) ∨
      Effect.send channel embeds ∈ (postEmbeds env guildId channel embeds s).state.effects := by
  have hlen : ¬ embeds.length = 0 := by
    rw [List.length_eq_zero]
    exact hne
  unfold postEmbeds
  rw [if_neg hlen]
  split
  · exact Or.inr (sendAndStore_sends _ _ _ _ _)
  · split
    · exact Or.inr (sendAndStore_sends _ _ _ _ _)
    · split
      · rename_i m _ _ _
        exact Or.inl ⟨m, by simp [State.emit]⟩
      · exact Or.inr (sendAndStore_sends _ _ _ _ _)


theorem templ_eq (name : Option String) : templ name = name.getD "undefined" := by
  cases name <;> rfl

/-- C6, the claim fails: Steam answers successfully for the one tracked
profile, with an empty avatar address.  `setThumbnail` throws on it inside the
loop, so the loop builds no card sequence and `updateStatus` is rejected after
the request, with no edit and no send. -/
theorem blank_avatar_aborts_the_cycle :
    fetched blankAvatarEnv (trackedUsers oneGuild "g1")
      = [⟨"76561197960287930", some "gabe", some "", "Not playing anything"⟩] ∧
    (collectEmbeds oneGuild.imageURLPredicate blankAvatarEnv 0 (trackedUsers oneGuild "g1")
        [] []).1 = none ∧
    (updateStatus blankAvatarEnv "g1" oneGuild).threw = true ∧
    (updateStatus blankAvatarEnv "g1" oneGuild).state.effects
      = [.httpGet "76561197960287930"] := by
  decide

/-- C6, amended: for every tracked list and every assignment of fetch outcomes
in which each successfully fetched record passes the validation of the
builder, the loop of `updateStatus` ends normally, whatever fetches failed,
with as many cards as there are successful fetches, and, in tracked order, the
title, the profile link and the activity field of each card come from the
matching successful record.  The empty list yields the empty card sequence.
Whenever the channel resolves and a card exists, `updateStatus` hands exactly
these cards to an edit or to a send. -/
theorem one_card_per_accepted_record (accepts : String → Bool) (env : Env)
    (users : List String)
    (hvalid : ∀ ip ∈ users.enum, ∀ r, getSteamStatus ip.2 (env.steam ip.1 ip.2) = some r →
      passesValidation accepts ip.2 r) :
    ∃ cards,
      (collectEmbeds accepts env 0 users [] []).1 = some cards ∧
      cards.length = (fetched env users).length ∧
      (fetched env users).length
        = (users.enum.filter
            (fun ip => (getSteamStatus ip.2 (env.steam ip.1 ip.2)).isSome)).length ∧
      cards.map (fun c => (c.title, c.fields.take 2))
        = (fetched env users).map (fun r =>
            ("👤  " ++ r.name.getD "undefined",
              [("Profile", "[Link](https://steamcommunity.com/profiles/" ++ r.id ++ ")"),
               ("Currently Playing", r.game)])) ∧
      (collectEmbeds accepts env 0 [] [] []).1 = some [] ∧
      (∀ (s : State) (guildId channel : String), s.imageURLPredicate = accepts →
        trackedUsers s guildId = users →
        resolveChannel env ((s.serverTrackedUsers.get guildId).bind (fun g => g.channelId))
          = some channel →
        cards ≠ [] →
        (∃ m, Effect.edit channel m cards ∈ (updateStatus env guildId s).state.effects) ∨
          Effect.send channel cards ∈ (updateStatus env guildId s).state.effects) := by
  have hacc : ∀ ip ∈ users.enumFrom 0, ∀ r,
      getSteamStatus ip.2 (env.steam ip.1 ip.2) = some r →
      settersAccept accepts (embedData env ip.1 ip.2 r) = true := by
    intro ip hip r hr
    exact settersAccept_of_passes accepts env ip.1 ip.2 r (getSteamStatus_record hr).2
      (hvalid ip hip r hr)
  have hcol := collectEmbeds_of_accepted accepts env users 0 [] [] hacc
  simp only [List.nil_append] at hcol
  refine ⟨_, by rw [hcol], ?_, ?_, ?_, rfl, ?_⟩
  · exact filterMap_length_fetched env _
  · rw [fetched]
    generalize users.enum = l
    induction l with
    | nil => rfl
    | cons ip l ih =>
      cases h : getSteamStatus ip.2 (env.steam ip.1 ip.2) <;>
        simp [List.filterMap_cons, List.filter_cons, h, ih]
  · rw [fetched]
    show List.map _ (List.filterMap _ users.enum) = _
    generalize users.enum = l
    induction l with
    | nil => rfl
    | cons ip l ih =>
      cases h : getSteamStatus ip.2 (env.steam ip.1 ip.2) with
      | none => simp [List.filterMap_cons, h, ih]
      | some r =>
        have hid := (getSteamStatus_record h).1
        simp [List.filterMap_cons, h, ih, embedData, hid, templ_eq]
  · intro s guildId channel hlib hu hch hne
    unfold updateStatus
    rw [hch, hu, hlib, hcol]
    exact postEmbeds_posts env guildId channel _ _ hne

/-- C6, amended, at a concrete input: of two tracked profiles the first fetch
fails and the second record passes validation; one card is built, and
`updateStatus` hands it to an edit or a send. -/
theorem one_card_per_accepted_record_witness :
    ∃ cards,
      (collectEmbeds sampleURLPredicate firstFailsEnv 0
        ["76561197960287930", "76561198000000000"] [] []).1 = some cards ∧
      cards.length = (fetched firstFailsEnv ["76561197960287930", "76561198000000000"]).length ∧
      (fetched firstFailsEnv ["76561197960287930", "76561198000000000"]).length = 1 ∧
      ((∃ m, Effect.edit "c1" m cards
            ∈ (updateStatus firstFailsEnv "g1" twoTracked).state.effects) ∨
        Effect.send "c1" cards ∈ (updateStatus firstFailsEnv "g1" twoTracked).state.effects) := by
  obtain ⟨cards, h1, h2, _, _, _, h6⟩ :=
    one_card_per_accepted_record sampleURLPredicate firstFailsEnv
      ["76561197960287930", "76561198000000000"]
      (by
        intro ip hip r hr
        simp only [List.enum, List.enumFrom, List.mem_cons, List.mem_singleton,
          List.not_mem_nil, or_false] at hip
        rcases hip with rfl | rfl
        · have : getSteamStatus "76561197960287930"
              (firstFailsEnv.steam 0 "76561197960287930") = none := by decide
          simp only at hr
          rw [this] at hr
          exact absurd hr (by simp)
        · have hr1 : r = ⟨"76561198000000000", some "gabe", some "https://avatars/gabe.jpg",
              "Dota 2"⟩ := by
            have : getSteamStatus "76561198000000000"
                (firstFailsEnv.steam 1 "76561198000000000")
                = some ⟨"76561198000000000", some "gabe", some "https://avatars/gabe.jpg",
                    "Dota 2"⟩ := by decide
            simp only at hr
            rw [this] at hr
            exact (Option.some.inj hr).symm
          subst hr1
          decide)
  have hlen : (fetched firstFailsEnv ["76561197960287930", "76561198000000000"]).length = 1 := by
    decide
  refine ⟨cards, h1, h2, hlen, h6 twoTracked "g1" "c1" rfl (by decide) (by decide) ?_⟩
  intro hnil
  rw [hnil, hlen] at h2
  simp at h2


theorem sendAndStore_lib (env : Env) (guildId channel : String) (embeds : List Embed)
    (s : State) :
    (sendAndStore env guildId channel embeds s).state.imageURLPredicate
      = s.imageURLPredicate := by
  unfold sendAndStore
  cases env.sendResult with
  | none => rfl
  | some sent =>
    simp only [saveTrackedUsers]
    split <;> rfl

theorem postEmbeds_lib (env : Env) (guildId channel : String) (embeds : List Embed)
    (s : State) :
    (postEmbeds env guildId channel embeds s).state.imageURLPredicate
      = s.imageURLPredicate := by
  unfold postEmbeds
  split
  · rfl
  · split
    · exact sendAndStore_lib _ _ _ _ _
    · split
      · exact sendAndStore_lib _ _ _ _ _
      · split
        · rfl
        · exact sendAndStore_lib _ _ _ _ _

theorem updateStatus_lib (env : Env) (guildId : String) (s : State) :
    (updateStatus env guildId s).state.imageURLPredicate = s.imageURLPredicate := by
  unfold updateStatus
  split
  · rfl
  · split
    · rfl
    · exact postEmbeds_lib _ _ _ _ _

theorem updateStatus_of_cards (env : Env) (guildId channel : String) (s : State)
    (cards : List Embed) (fx : List Effect)
    (hch : resolveChannel env ((s.serverTrackedUsers.get guildId).bind (fun g => g.channelId))
      = some channel)
    (hc : collectEmbeds s.imageURLPredicate env 0 (trackedUsers s guildId) [] []
      = (some cards, fx)) :
    updateStatus env guildId s
      = postEmbeds env guildId channel cards { s with effects := s.effects ++ fx } := by
  unfold updateStatus
  rw [hch, hc]

theorem sendAndStore_completed (env : Env) (guildId channel : String) (embeds : List Embed)
    (s : State) (g : GuildState) (hg : s.serverTrackedUsers.get guildId = some g)
    (h : (sendAndStore env guildId channel embeds s).threw = false) :
    ∃ n : Nat, (sendAndStore env guildId channel embeds s).state.serverTrackedUsers
      = s.serverTrackedUsers.set guildId { g with messageId := some (toString n) } := by
  unfold sendAndStore at h ⊢
  cases hsend : env.sendResult with
  | none => simp [hsend] at h
  | some n =>
    refine ⟨n, ?_⟩
    simp only [saveTrackedUsers_store]
    simp [State.emit, hg]

/-- Posting a non-empty card sequence: when it returns normally, the entry of
the guild holds a non-empty message id afterwards, and its channel is
unchanged. -/
theorem postEmbeds_completed_stores_id (env : Env) (guildId channel : String)
    (embeds : List Embed) (s : State) (g : GuildState)
    (hg : s.serverTrackedUsers.get guildId = some g) (hgc : g.channelId = some channel)
    (hne : embeds ≠ [])
    (hrun : (postEmbeds env guildId channel embeds s).threw = false) :
    ∃ m, ((postEmbeds env guildId channel embeds s).state.serverTrackedUsers.get guildId).bind
        (fun g => g.messageId) = some m ∧ m ≠ "" ∧
      ((postEmbeds env guildId channel embeds s).state.serverTrackedUsers.get guildId).bind
        (fun g => g.channelId) = some channel := by
  have hlen : ¬ embeds.length = 0 := by
    rw [List.length_eq_zero]
    exact hne
  have sent : ∀ (t : State),
      t.serverTrackedUsers = s.serverTrackedUsers →
      (sendAndStore env guildId channel embeds t).threw = false →
      ∃ m, ((sendAndStore env guildId channel embeds t).state.serverTrackedUsers.get guildId).bind
          (fun g => g.messageId) = some m ∧ m ≠ "" ∧
        ((sendAndStore env guildId channel embeds t).state.serverTrackedUsers.get guildId).bind
          (fun g => g.channelId) = some channel := by
    intro t ht hthrew
    obtain ⟨n, hn⟩ := sendAndStore_completed env guildId channel embeds t g (by rw [ht, hg])
      hthrew
    refine ⟨toString n, ?_, toString_nat_ne_empty n, ?_⟩
    · rw [hn, Obj.get_set_same]
      rfl
    · rw [hn, Obj.get_set_same]
      exact hgc
  unfold postEmbeds at hrun ⊢
  rw [if_neg hlen] at hrun ⊢
  split at hrun
  · exact sent _ rfl hrun
  · rename_i m hmid
    split at hrun
    · rename_i hempty
      rw [if_pos hempty]
      exact sent _ rfl hrun
    · rename_i hnem
      rw [if_neg hnem]
      split at hrun
      · rename_i hex
        rw [if_pos hex]
        refine ⟨m, ?_, hnem, ?_⟩
        · simpa [State.emit] using hmid
        · simp [State.emit, hg, hgc]
      · rename_i hex
        rw [if_neg hex]
        exact sent _ rfl hrun

/-- Posting finds a stored, non-empty id of an existing message: it fetches
and edits that message and changes nothing but the effects. -/
theorem postEmbeds_edits (env : Env) (guildId channel m : String) (embeds : List Embed)
    (t : State) (hne : embeds ≠ [])
    (hm : (t.serverTrackedUsers.get guildId).bind (fun g => g.messageId) = some m)
    (hnem : m ≠ "") (hex : env.messageExists channel m = true) :
    postEmbeds env guildId channel embeds t
      = ⟨{ t with effects := t.effects ++ [.fetchMessage channel m, .edit channel m embeds] },
          !env.editOk⟩ := by
  have hlen : ¬ embeds.length = 0 := by
    rw [List.length_eq_zero]
    exact hne
  unfold postEmbeds
  rw [if_neg hlen]
  simp only [hm, if_neg hnem, hex, if_true, State.emit, List.append_assoc, List.cons_append,
    List.nil_append]

/-- C7: let the output channel of the guild resolve in two consecutive
`updateStatus` runs, let the presence data be the same in both with at least
one successful fetch, let the first run return normally, and let the message
whose id the store holds after the first run exist at the second run.  Then a
message id is stored after the first run, and the second run performs its
fetches, builds its cards, fetches that message and edits it with these
cards: it adds no send to the effects, and it leaves the store, the stored
message id included, as the first run left it. -/
theorem second_run_edits_stored_message (env1 env2 : Env) (guildId channel : String)
    (s : State)
    (hch1 : resolveChannel env1
      ((s.serverTrackedUsers.get guildId).bind (fun g => g.channelId)) = some channel)
    (hch2 : env2.channelCached channel = true)
    (hsteam : env2.steam = env1.steam)
    (hok : fetched env1 (trackedUsers s guildId) ≠ [])
    (hrun1 : (updateStatus env1 guildId s).threw = false)
    (hexists : ∀ m,
      ((updateStatus env1 guildId s).state.serverTrackedUsers.get guildId).bind
        (fun g => g.messageId) = some m → env2.messageExists channel m = true) :
    ∃ m cards,
      ((updateStatus env1 guildId s).state.serverTrackedUsers.get guildId).bind
        (fun g => g.messageId) = some m ∧
      (collectEmbeds s.imageURLPredicate env2 0 (trackedUsers s guildId) [] []).1
        = some cards ∧
      (updateStatus env2 guildId (updateStatus env1 guildId s).state).state.effects
        = (updateStatus env1 guildId s).state.effects
          ++ (collectEmbeds s.imageURLPredicate env2 0 (trackedUsers s guildId) [] []).2
          ++ [.fetchMessage channel m, .edit channel m cards] ∧
      (∀ c e,
        Effect.send c e
            ∈ (updateStatus env2 guildId (updateStatus env1 guildId s).state).state.effects →
          Effect.send c e ∈ (updateStatus env1 guildId s).state.effects) ∧
      (updateStatus env2 guildId (updateStatus env1 guildId s).state).state.serverTrackedUsers
        = (updateStatus env1 guildId s).state.serverTrackedUsers ∧
      ((updateStatus env2 guildId
          (updateStatus env1 guildId s).state).state.serverTrackedUsers.get guildId).bind
        (fun g => g.messageId) = some m := by
  have hcid := resolveChannel_some hch1
  obtain ⟨g, hg⟩ := entry_of_channel hcid
  have hgc : g.channelId = some channel := by simpa [hg] using hcid
  -- the first run ended its loop normally
  obtain ⟨cards1, fx1, hc1⟩ : ∃ cards1 fx1,
      collectEmbeds s.imageURLPredicate env1 0 (trackedUsers s guildId) [] []
        = (some cards1, fx1) := by
    cases hc : collectEmbeds s.imageURLPredicate env1 0 (trackedUsers s guildId) [] [] with
    | mk c fx =>
      cases c with
      | none =>
        unfold updateStatus at hrun1
        rw [hch1, hc] at hrun1
        simp at hrun1
      | some cards1 => exact ⟨cards1, fx, rfl⟩
  have hacc1 := accepted_of_collectEmbeds s.imageURLPredicate env1 (trackedUsers s guildId)
    0 [] [] cards1 (by rw [hc1])
  have hcol1 := collectEmbeds_of_accepted s.imageURLPredicate env1 (trackedUsers s guildId)
    0 [] [] hacc1
  have hacc2 : ∀ ip ∈ (trackedUsers s guildId).enumFrom 0, ∀ r,
      getSteamStatus ip.2 (env2.steam ip.1 ip.2) = some r →
      settersAccept s.imageURLPredicate (embedData env2 ip.1 ip.2 r) = true := by
    intro ip hip r hr
    rw [hsteam] at hr
    rw [settersAccept_env s.imageURLPredicate env2 env1 ip.1 ip.1 ip.2 r]
    exact hacc1 ip hip r hr
  have hcol2 := collectEmbeds_of_accepted s.imageURLPredicate env2 (trackedUsers s guildId)
    0 [] [] hacc2
  simp only [List.nil_append] at hcol1 hcol2
  have hfetched : fetched env2 (trackedUsers s guildId) = fetched env1 (trackedUsers s guildId) := by
    simp only [fetched, hsteam]
  have hne1 : cards1 ≠ [] := by
    intro hnil
    have h1 : cards1.length = (fetched env1 (trackedUsers s guildId)).length := by
      have := congrArg Prod.fst (hc1.symm.trans hcol1)
      simp only [Option.some.injEq] at this
      rw [this]
      exact filterMap_length_fetched env1 _
    rw [hnil] at h1
    exact hok (List.length_eq_zero.mp h1.symm)
  generalize hcards2 : (trackedUsers s guildId).enum.filterMap (fun ip =>
      (getSteamStatus ip.2 (env2.steam ip.1 ip.2)).map (embedData env2 ip.1 ip.2)) = cards2
  have hcol2a : collectEmbeds s.imageURLPredicate env2 0 (trackedUsers s guildId) [] []
      = (some cards2, (collectEmbeds s.imageURLPredicate env2 0
          (trackedUsers s guildId) [] []).2) := by
    rw [hcol2]
    simp only [List.enum] at hcards2
    rw [hcards2]
  have hne2 : cards2 ≠ [] := by
    intro hnil
    have h2 : cards2.length = (fetched env2 (trackedUsers s guildId)).length := by
      rw [← hcards2]
      exact filterMap_length_fetched env2 _
    rw [hnil, hfetched] at h2
    exact hok (List.length_eq_zero.mp h2.symm)
  -- the first run posted and left a message id
  have hrun1eq := updateStatus_of_cards env1 guildId channel s cards1 fx1 hch1 hc1
  rw [hrun1eq] at hrun1
  obtain ⟨m, hm, hnem, hcid1⟩ := postEmbeds_completed_stores_id env1 guildId channel cards1
    { s with effects := s.effects ++ fx1 } g hg hgc hne1 hrun1
  rw [← hrun1eq] at hm hcid1
  -- the second run
  have husers : trackedUsers (updateStatus env1 guildId s).state guildId
      = trackedUsers s guildId :=
    trackedUsers_of_usersField (users_of_sameUpTo (updateStatus_store env1 guildId s) guildId)
  have hch : resolveChannel env2
      (((updateStatus env1 guildId s).state.serverTrackedUsers.get guildId).bind
        (fun g => g.channelId)) = some channel := by
    rw [hcid1]
    simp [resolveChannel, hch2]
  have h2 := updateStatus_of_cards env2 guildId channel (updateStatus env1 guildId s).state
    cards2 _ hch (by rw [husers, updateStatus_lib]; exact hcol2a)
  have hedit := postEmbeds_edits env2 guildId channel m cards2
    { (updateStatus env1 guildId s).state with
      effects := (updateStatus env1 guildId s).state.effects
        ++ (collectEmbeds s.imageURLPredicate env2 0 (trackedUsers s guildId) [] []).2 }
    hne2 hm hnem (hexists m hm)
  rw [hedit] at h2
  refine ⟨m, cards2, hm, by rw [hcol2a], ?_, ?_, ?_, ?_⟩
  · rw [h2]
  · intro c e hmem
    rw [h2] at hmem
    simp only [List.mem_append, List.mem_cons, List.mem_singleton, List.not_mem_nil,
      or_false] at hmem
    rcases hmem with (hmem | hmem) | hmem
    · exact hmem
    · exact absurd hmem
        (collectEmbeds_no_send s.imageURLPredicate env2 _ c e 0 [] [] (by simp))
    · rcases hmem with hmem | hmem <;> simp at hmem
  · rw [h2]
  · rw [h2]
    exact hm

/-- C7 at a concrete input: two runs for `oneGuild` in `calmEnv`; the first
sends message 1001, the second edits it. -/
theorem second_run_edits_stored_message_witness :
    ∃ m cards,
      ((updateStatus calmEnv "g1" oneGuild).state.serverTrackedUsers.get "g1").bind
        (fun g => g.messageId) = some m ∧
      (collectEmbeds oneGuild.imageURLPredicate calmEnv 0 (trackedUsers oneGuild "g1") [] []).1
        = some cards ∧
      (updateStatus calmEnv "g1" (updateStatus calmEnv "g1" oneGuild).state).state.effects
        = (updateStatus calmEnv "g1" oneGuild).state.effects
          ++ (collectEmbeds oneGuild.imageURLPredicate calmEnv 0
              (trackedUsers oneGuild "g1") [] []).2
          ++ [.fetchMessage "c1" m, .edit "c1" m cards] ∧
      (∀ c e,
        Effect.send c e
            ∈ (updateStatus calmEnv "g1" (updateStatus calmEnv "g1" oneGuild).state).state.effects →
          Effect.send c e ∈ (updateStatus calmEnv "g1" oneGuild).state.effects) ∧
      (updateStatus calmEnv "g1" (updateStatus calmEnv "g1" oneGuild).state).state.serverTrackedUsers
        = (updateStatus calmEnv "g1" oneGuild).state.serverTrackedUsers ∧
      ((updateStatus calmEnv "g1"
          (updateStatus calmEnv "g1" oneGuild).state).state.serverTrackedUsers.get "g1").bind
        (fun g => g.messageId) = some m :=
  second_run_edits_stored_message calmEnv calmEnv "g1" "c1" oneGuild (by decide) rfl rfl
    (by decide) (by decide) (fun _ _ => rfl)

end SteamStalker
